import Mathlib

/-!
# transferwise-exchange-rate: a shallow embedding of `p/cloud.go`

The Go package `p` fetches one USD→AUD rate from an HTTP API and posts it to a
Slack webhook.  This file embeds the three functions of `p/cloud.go`
(`HelloPubSub`, `getExchangeRate`, `sendToSlack`) as pure Lean functions over an
explicit environment (process environment variables and the HTTP transport) and
proves properties of them.

The Go standard-library pieces the code calls are modelled first:

* `encoding/json` decoding (`json.NewDecoder(r).Decode(&rates)`): the scanner of
  `encoding/json/scanner.go` state by state, `Decoder.readValue`, and the
  decoding rules of `decode.go` for the static type `[]exchangeRate`;
* `strconv.ParseFloat` (nearest binary64, ties to even, range error on overflow);
* `fmt.Sprintf("%.5f", x)` on a binary64;
* `json.Marshal` of a `slackMessage` (field order, `omitempty`);
* `envconfig.Process` with `required:"true"` fields.

Go `float64` values are their IEEE-754 bit patterns (`math.Float64bits`), a natural
number below `2^64`; bytes are natural numbers.
-/

namespace p

/-! ## Bytes -/

/-- A byte of a Go `[]byte`. -/
abbrev Byte := Nat

/-- The bytes of an ASCII string literal. -/
def asciiBytes (s : String) : List Byte := s.toList.map Char.toNat

/-- Equality of results is decidable when equality of errors and of values is. -/
instance instDecidableEqExcept {ε α : Type} [DecidableEq ε] [DecidableEq α] :
    DecidableEq (Except ε α) := fun a b =>
  match a, b with
  | .ok x, .ok y => if h : x = y then isTrue (by rw [h]) else isFalse (fun h2 => h (by cases h2; rfl))
  | .error x, .error y =>
    if h : x = y then isTrue (by rw [h]) else isFalse (fun h2 => h (by cases h2; rfl))
  | .ok _, .error _ => isFalse (fun h2 => by cases h2)
  | .error _, .ok _ => isFalse (fun h2 => by cases h2)

/-! ## `encoding/json`: the scanner (`scanner.go`) -/

/-- The opcodes a scanner step returns. -/
inductive Opcode where
  | scanContinue
  | scanBeginLiteral
  | scanBeginObject
  | scanObjectKey
  | scanObjectValue
  | scanEndObject
  | scanBeginArray
  | scanArrayValue
  | scanEndArray
  | scanSkipSpace
  | scanEnd
  | scanError
  deriving DecidableEq

/-- The entries of the scanner's `parseState` stack. -/
inductive ParseState where
  | parseObjectKey
  | parseObjectValue
  | parseArrayValue
  deriving DecidableEq

/-- The scanner's `step` field: which state function handles the next byte. -/
inductive Step where
  | stateBeginValueOrEmpty
  | stateBeginValue
  | stateBeginStringOrEmpty
  | stateBeginString
  | stateEndValue
  | stateEndTop
  | stateInString
  | stateInStringEsc
  | stateInStringEscU
  | stateInStringEscU1
  | stateInStringEscU12
  | stateInStringEscU123
  | stateNeg
  | state1
  | state0
  | stateDot
  | stateDot0
  | stateE
  | stateESign
  | stateE0
  | stateT
  | stateTr
  | stateTru
  | stateF
  | stateFa
  | stateFal
  | stateFals
  | stateN
  | stateNu
  | stateNul
  | stateError
  deriving DecidableEq

/-- What a `*json.SyntaxError` of the scanner says: the offending byte and the context
the scanner names.  (Go renders the message as
`"invalid character " + quoteChar(c) + " " + context`.) -/
structure SyntaxError where
  c : Byte
  context : String
  deriving DecidableEq

/-- The scanner.  `parseState` is Go's stack with the top (last appended) entry
at the head of the list.  The count of bytes consumed, which Go keeps in the field
`bytes` for the offset of an error, is kept by the caller (`readValueLoop`). -/
structure scanner where
  step : Step
  endTop : Bool
  parseState : List ParseState
  err : Option SyntaxError
  deriving DecidableEq

/-- The limit `maxNestingDepth` on the depth of `parseState`. -/
def maxNestingDepth : Nat := 10000

/-- The scanner after `scanner.reset`. -/
def scanner.reset (s : scanner) : scanner :=
  { s with step := .stateBeginValue, parseState := [], err := none, endTop := false }

/-- The method `scanner.error`: record a syntax error and stop. -/
def scanner.error (s : scanner) (c : Byte) (context : String) : Opcode × scanner :=
  (.scanError, { s with step := .stateError, err := some ⟨c, context⟩ })

/-- The method `scanner.pushParseState`; the caller has set `s.step` already. -/
def scanner.pushParseState (s : scanner) (c : Byte) (newParseState : ParseState)
    (successState : Opcode) : Opcode × scanner :=
  let s1 := { s with parseState := newParseState :: s.parseState }
  if s1.parseState.length ≤ maxNestingDepth then (successState, s1)
  else s1.error c "exceeded max depth"

/-- The method `scanner.popParseState`. -/
def scanner.popParseState (s : scanner) : scanner :=
  let rest := s.parseState.tail
  if rest.length = 0 then { s with parseState := rest, step := .stateEndTop, endTop := true }
  else { s with parseState := rest, step := .stateEndValue }

/-- The function `isSpace`: space, tab, carriage return, line feed. -/
def isSpace (c : Byte) : Bool := c == 32 || c == 9 || c == 13 || c == 10

/-- The decimal digits `0`..`9`. -/
def isDigit (c : Byte) : Bool := 48 ≤ c && c ≤ 57

/-- The digits `1`..`9`. -/
def isDigit19 (c : Byte) : Bool := 49 ≤ c && c ≤ 57

/-- The hexadecimal digits `0-9a-fA-F`. -/
def isHex (c : Byte) : Bool := isDigit c || (97 ≤ c && c ≤ 102) || (65 ≤ c && c ≤ 70)

/-- State after the top-level value: only space may follow; a non-space byte is
recorded as an error for the next call, and the opcode is `scanEnd` either way. -/
def stateEndTop (s : scanner) (c : Byte) : Opcode × scanner :=
  if !isSpace c then (.scanEnd, (s.error c "after top-level value").2)
  else (.scanEnd, s)

/-- State after completing a value, such as after reading `{}` or `true`. -/
def stateEndValue (s : scanner) (c : Byte) : Opcode × scanner :=
  match s.parseState with
  | [] => stateEndTop { s with step := .stateEndTop, endTop := true } c
  | ps :: rest =>
    if isSpace c then (.scanSkipSpace, { s with step := .stateEndValue })
    else
      match ps with
      | .parseObjectKey =>
        if c == 58 then -- ':'
          (.scanObjectKey, { s with parseState := .parseObjectValue :: rest, step := .stateBeginValue })
        else s.error c "after object key"
      | .parseObjectValue =>
        if c == 44 then -- ','
          (.scanObjectValue, { s with parseState := .parseObjectKey :: rest, step := .stateBeginString })
        else if c == 125 then -- right brace
          (.scanEndObject, s.popParseState)
        else s.error c "after object key:value pair"
      | .parseArrayValue =>
        if c == 44 then -- ','
          (.scanArrayValue, { s with step := .stateBeginValue })
        else if c == 93 then -- ']'
          (.scanEndArray, s.popParseState)
        else s.error c "after array element"

/-- State at the beginning of a value. -/
def stateBeginValue (s : scanner) (c : Byte) : Opcode × scanner :=
  if isSpace c then (.scanSkipSpace, s)
  else if c == 123 then -- left brace
    ({ s with step := .stateBeginStringOrEmpty }).pushParseState c .parseObjectKey .scanBeginObject
  else if c == 91 then -- '['
    ({ s with step := .stateBeginValueOrEmpty }).pushParseState c .parseArrayValue .scanBeginArray
  else if c == 34 then -- double quote
    (.scanBeginLiteral, { s with step := .stateInString })
  else if c == 45 then -- '-'
    (.scanBeginLiteral, { s with step := .stateNeg })
  else if c == 48 then -- '0'
    (.scanBeginLiteral, { s with step := .state0 })
  else if c == 116 then -- 't'
    (.scanBeginLiteral, { s with step := .stateT })
  else if c == 102 then -- 'f'
    (.scanBeginLiteral, { s with step := .stateF })
  else if c == 110 then -- 'n'
    (.scanBeginLiteral, { s with step := .stateN })
  else if isDigit19 c then
    (.scanBeginLiteral, { s with step := .state1 })
  else s.error c "looking for beginning of value"

/-- State after reading `[`. -/
def stateBeginValueOrEmpty (s : scanner) (c : Byte) : Opcode × scanner :=
  if isSpace c then (.scanSkipSpace, s)
  else if c == 93 then stateEndValue s c -- ']'
  else stateBeginValue s c

/-- State after reading `{"key": value,`. -/
def stateBeginString (s : scanner) (c : Byte) : Opcode × scanner :=
  if isSpace c then (.scanSkipSpace, s)
  else if c == 34 then (.scanBeginLiteral, { s with step := .stateInString })
  else s.error c "looking for beginning of object key string"

/-- State after reading the opening brace of an object. -/
def stateBeginStringOrEmpty (s : scanner) (c : Byte) : Opcode × scanner :=
  if isSpace c then (.scanSkipSpace, s)
  else if c == 125 then -- right brace
    stateEndValue { s with parseState := .parseObjectValue :: s.parseState.tail } c
  else stateBeginString s c

/-- State inside a string literal. -/
def stateInString (s : scanner) (c : Byte) : Opcode × scanner :=
  if c == 34 then (.scanContinue, { s with step := .stateEndValue })
  else if c == 92 then (.scanContinue, { s with step := .stateInStringEsc }) -- backslash
  else if c < 32 then s.error c "in string literal"
  else (.scanContinue, s)

/-- State after a backslash inside a string: `b f n r t \ / "` or `u`. -/
def stateInStringEsc (s : scanner) (c : Byte) : Opcode × scanner :=
  if c == 98 || c == 102 || c == 110 || c == 114 || c == 116 || c == 92 || c == 47 || c == 34 then
    (.scanContinue, { s with step := .stateInString })
  else if c == 117 then (.scanContinue, { s with step := .stateInStringEscU })
  else s.error c "in string escape code"

/-- The four states reading the hexadecimal digits of a `\u` escape; `next` is the
state after this digit. -/
def stateInStringEscHex (next : Step) (s : scanner) (c : Byte) : Opcode × scanner :=
  if isHex c then (.scanContinue, { s with step := next })
  else s.error c "in \\u hexadecimal character escape"

/-- State after reading `-` of a number. -/
def stateNeg (s : scanner) (c : Byte) : Opcode × scanner :=
  if c == 48 then (.scanContinue, { s with step := .state0 })
  else if isDigit19 c then (.scanContinue, { s with step := .state1 })
  else s.error c "in numeric literal"

/-- State after reading `0` of a number. -/
def state0 (s : scanner) (c : Byte) : Opcode × scanner :=
  if c == 46 then (.scanContinue, { s with step := .stateDot }) -- '.'
  else if c == 101 || c == 69 then (.scanContinue, { s with step := .stateE }) -- 'e', 'E'
  else stateEndValue s c

/-- State after reading a non-zero integer of a number. -/
def state1 (s : scanner) (c : Byte) : Opcode × scanner :=
  if isDigit c then (.scanContinue, { s with step := .state1 })
  else state0 s c

/-- State after reading the decimal point of a number. -/
def stateDot (s : scanner) (c : Byte) : Opcode × scanner :=
  if isDigit c then (.scanContinue, { s with step := .stateDot0 })
  else s.error c "after decimal point in numeric literal"

/-- State after reading a digit after the decimal point. -/
def stateDot0 (s : scanner) (c : Byte) : Opcode × scanner :=
  if isDigit c then (.scanContinue, s)
  else if c == 101 || c == 69 then (.scanContinue, { s with step := .stateE })
  else stateEndValue s c

/-- State after reading the exponent sign (or when there is none). -/
def stateESign (s : scanner) (c : Byte) : Opcode × scanner :=
  if isDigit c then (.scanContinue, { s with step := .stateE0 })
  else s.error c "in exponent of numeric literal"

/-- State after reading `e` or `E` of a number. -/
def stateE (s : scanner) (c : Byte) : Opcode × scanner :=
  if c == 43 || c == 45 then (.scanContinue, { s with step := .stateESign }) -- '+', '-'
  else stateESign s c

/-- State after reading a digit of the exponent. -/
def stateE0 (s : scanner) (c : Byte) : Opcode × scanner :=
  if isDigit c then (.scanContinue, s)
  else stateEndValue s c

/-- The states inside `true`, `false`, `null`: the byte `want` leads to `next`. -/
def stateLiteral (want : Byte) (next : Step) (context : String) (s : scanner) (c : Byte) :
    Opcode × scanner :=
  if c == want then (.scanContinue, { s with step := next })
  else s.error c context

/-- The call `s.step(s, c)`: dispatch on the current state function. -/
def scanner.doStep (s : scanner) (c : Byte) : Opcode × scanner :=
  match s.step with
  | .stateBeginValueOrEmpty => stateBeginValueOrEmpty s c
  | .stateBeginValue => stateBeginValue s c
  | .stateBeginStringOrEmpty => stateBeginStringOrEmpty s c
  | .stateBeginString => stateBeginString s c
  | .stateEndValue => stateEndValue s c
  | .stateEndTop => stateEndTop s c
  | .stateInString => stateInString s c
  | .stateInStringEsc => stateInStringEsc s c
  | .stateInStringEscU => stateInStringEscHex .stateInStringEscU1 s c
  | .stateInStringEscU1 => stateInStringEscHex .stateInStringEscU12 s c
  | .stateInStringEscU12 => stateInStringEscHex .stateInStringEscU123 s c
  | .stateInStringEscU123 => stateInStringEscHex .stateInString s c
  | .stateNeg => stateNeg s c
  | .state1 => state1 s c
  | .state0 => state0 s c
  | .stateDot => stateDot s c
  | .stateDot0 => stateDot0 s c
  | .stateE => stateE s c
  | .stateESign => stateESign s c
  | .stateE0 => stateE0 s c
  | .stateT => stateLiteral 114 .stateTr "in literal true (expecting r)" s c
  | .stateTr => stateLiteral 117 .stateTru "in literal true (expecting u)" s c
  | .stateTru => stateLiteral 101 .stateEndValue "in literal true (expecting e)" s c
  | .stateF => stateLiteral 97 .stateFa "in literal false (expecting a)" s c
  | .stateFa => stateLiteral 108 .stateFal "in literal false (expecting l)" s c
  | .stateFal => stateLiteral 115 .stateFals "in literal false (expecting s)" s c
  | .stateFals => stateLiteral 101 .stateEndValue "in literal false (expecting e)" s c
  | .stateN => stateLiteral 117 .stateNu "in literal null (expecting u)" s c
  | .stateNu => stateLiteral 108 .stateNul "in literal null (expecting l)" s c
  | .stateNul => stateLiteral 108 .stateEndValue "in literal null (expecting l)" s c
  | .stateError => (.scanError, s)

/-! ## `encoding/json`: `Decoder.readValue` -/

/-- An `io.Reader` such as a response body, as the decoder sees it: the bytes it
delivers and how the stream ends, `none` for `io.EOF` and `some e` for a read error
(a connection reset, the request deadline). -/
structure Reader where
  data : List Byte
  err : Option String
  deriving DecidableEq

/-- The errors `Decoder.Decode` returns. -/
inductive JSONError where
  /-- A `*json.SyntaxError` of the scanner, after `Offset` bytes. -/
  | syntaxError (e : SyntaxError) (Offset : Nat)
  /-- The error `io.EOF`: no value in the stream. -/
  | eof
  /-- The error `io.ErrUnexpectedEOF`: the stream ends inside a value. -/
  | unexpectedEOF
  /-- An error of the underlying reader. -/
  | read (msg : String)
  /-- A `*json.UnmarshalTypeError`: the JSON value `Value` does not fit the Go type `GoType`. -/
  | unmarshalType (Value : String) (GoType : String)
  /-- The decoder out of step with the scanner on bytes the scanner accepted, where
  Go panics with `phasePanicMsg`; kept as an error so that `Decode` is total. -/
  | phase
  deriving DecidableEq

/-- The loop of `Decoder.readValue`: feed the stream to the scanner until the first
JSON value is complete, and return the number of bytes it spans.  `scanp` counts
the bytes consumed so far.  At the end of the data a read error is returned as it
is; at `io.EOF` the scanner is offered a space. -/
def readValueLoop (r : Reader) : scanner → Nat → List Byte → Except JSONError Nat
  | s, scanp, [] =>
    match r.err with
    | some e => .error (.read e)
    | none =>
      if (s.doStep 32).1 = .scanEnd then .ok scanp
      else if r.data.any (fun c => !isSpace c) then .error .unexpectedEOF
      else .error .eof
  | s, scanp, c :: rest =>
    match s.doStep c with
    | (.scanEnd, _) => .ok scanp
    | (.scanEndObject, s2) =>
      let r2 := stateEndValue s2 32
      if r2.1 = .scanEnd then .ok (scanp + 1) else readValueLoop r r2.2 (scanp + 1) rest
    | (.scanEndArray, s2) =>
      let r2 := stateEndValue s2 32
      if r2.1 = .scanEnd then .ok (scanp + 1) else readValueLoop r r2.2 (scanp + 1) rest
    | (.scanError, s2) => .error (.syntaxError (s2.err.getD ⟨c, ""⟩) (scanp + 1))
    | (_, s2) => readValueLoop r s2 (scanp + 1) rest

/-- A fresh scanner, as `readValue` starts with after `scan.reset()`. -/
def scanner.init : scanner :=
  { step := .stateBeginValue, endTop := false, parseState := [], err := none }

/-- The method `Decoder.readValue` on a fresh decoder: the length of the first JSON
value of the stream (leading space included), or the error. -/
def readValue (r : Reader) : Except JSONError Nat :=
  readValueLoop r scanner.init 0 r.data

/-! ## `float64` and `strconv.ParseFloat` -/

/-- A Go `float64`, as its IEEE-754 binary64 bit pattern (`math.Float64bits`):
bit 63 is the sign, bits 52..62 the biased exponent, bits 0..51 the fraction. -/
structure Float64 where
  bits : Nat
  deriving DecidableEq

/-- The sign bit: `bits>>63 != 0`. -/
def Float64.neg (x : Float64) : Bool := decide ((x.bits % 2 ^ 64) / 2 ^ 63 ≠ 0)

/-- The biased exponent: `int(bits>>52) & (1<<11 - 1)`. -/
def Float64.exp (x : Float64) : Nat := (x.bits / 2 ^ 52) % 2 ^ 11

/-- The fraction field: `bits & (1<<52 - 1)`. -/
def Float64.mant (x : Float64) : Nat := x.bits % 2 ^ 52

/-- A finite value: neither an infinity nor a NaN (biased exponent below 2047). -/
def Float64.isFinite (x : Float64) : Bool := decide (x.exp ≠ 2047)

/-- The significand of a finite value: the fraction, with the implicit top bit
unless the value is denormalized. -/
def Float64.significand (x : Float64) : Nat :=
  if x.exp = 0 then x.mant else x.mant + 2 ^ 52

/-- The binary exponent of a finite value: the magnitude is
`significand * 2 ^ (binExp - 1075)`. -/
def Float64.binExp (x : Float64) : Nat := if x.exp = 0 then 1 else x.exp

/-- The magnitude of a finite value as a rational number. -/
def Float64.magnitude (x : Float64) : ℚ := (x.significand : ℚ) * 2 ^ x.binExp / 2 ^ 1075

/-- The integer nearest to `num / den`, ties to the even one (`den` positive). -/
def roundHalfEven (num den : Nat) : Nat :=
  let q := num / den
  let r := num % den
  if 2 * r < den then q
  else if den < 2 * r then q + 1
  else if q % 2 = 0 then q
  else q + 1

/-- The loop computing `floor (log2 n)` by halving, at most `fuel` times. -/
def log2Loop : Nat → Nat → Nat
  | 0, _ => 0
  | fuel + 1, n => if n < 2 then 0 else log2Loop fuel (n / 2) + 1

/-- The position of the top bit: `floor (log2 n)` for positive `n`, and 0 for 0. -/
def log2 (n : Nat) : Nat := log2Loop n n

/-- The fraction `num / (den * 2^e)` for an integer `e`, as numerator and
denominator. -/
def scalePow2 (num den : Nat) (e : Int) : Nat × Nat :=
  if 0 ≤ e then (num, den * 2 ^ e.toNat) else (num * 2 ^ (-e).toNat, den)

/-- The binary exponent for rounding `num/den` (both positive): the `e` with
`2^52 ≤ num / (den * 2^e) < 2^53`, but not below `-1074`, the exponent of the
denormalized numbers. -/
def roundExponent (num den : Nat) : Int :=
  let t : Int := (log2 num : Int) - (log2 den : Int)
  let e0 : Int := t - 52
  let p0 := scalePow2 num den e0
  let e1 : Int := if 2 ^ 52 ≤ p0.1 / p0.2 then e0 else e0 - 1
  max e1 (-1074)

/-- The binary64 with sign `neg` and magnitude `m * 2^e`, for a rounded significand
`m ≤ 2^53` and `e ≥ -1074`: a significand that rounding carried to `2^53` is
renormalized; `none` when the exponent exceeds 971, that of the largest finite
binary64 (`strconv.ErrRange`). -/
def packFloat64 (neg : Bool) (m : Nat) (e : Int) : Option Float64 :=
  let sign := if neg then 2 ^ 63 else 0
  let m3 := if m = 2 ^ 53 then 2 ^ 52 else m
  let e3 : Int := if m = 2 ^ 53 then e + 1 else e
  if 971 < e3 then none
  else if m3 < 2 ^ 52 then some ⟨sign + m3⟩
  else some ⟨sign + (e3 + 1075).toNat * 2 ^ 52 + (m3 - 2 ^ 52)⟩

/-- The binary64 nearest to `±num/den` (ties to even), or `none` when the rounded
value exceeds the largest finite binary64. -/
def float64OfRatio (neg : Bool) (num den : Nat) : Option Float64 :=
  if num = 0 then some ⟨if neg then 2 ^ 63 else 0⟩
  else
    let e := roundExponent num den
    let p := scalePow2 num den e
    packFloat64 neg (roundHalfEven p.1 p.2) e

/-- What `strconv` reads off a JSON number literal: sign, all mantissa digits as
one integer, the count of digits after the point, and the exponent (its sign and
its value, which stops growing once it has reached 10000 as in `readFloat`). -/
structure decimalLiteral where
  neg : Bool
  mant : Nat
  nfrac : Nat
  eneg : Bool
  e : Nat
  phase : Nat
  deriving DecidableEq

/-- One byte of a number literal; `phase` is 0 in the integer part, 1 after the
point, 2 after `e` or `E`. -/
def decimalLiteral.feed (d : decimalLiteral) (c : Byte) : decimalLiteral :=
  if c == 45 then (if d.phase = 2 then { d with eneg := true } else { d with neg := true })
  else if c == 46 then { d with phase := 1 }
  else if c == 101 || c == 69 then { d with phase := 2 }
  else if isDigit c then
    if d.phase = 0 then { d with mant := d.mant * 10 + (c - 48) }
    else if d.phase = 1 then { d with mant := d.mant * 10 + (c - 48), nfrac := d.nfrac + 1 }
    else if d.e < 10000 then { d with e := d.e * 10 + (c - 48) }
    else d
  else d

/-- The literal read by `strconv`. -/
def readFloat (item : List Byte) : decimalLiteral :=
  item.foldl decimalLiteral.feed ⟨false, 0, 0, false, 0, 0⟩

/-- The call `strconv.ParseFloat(s, 64)` on a JSON number literal: the binary64
nearest to `mant * 10^(±e - nfrac)`, or `none` for the range error. -/
def ParseFloat (item : List Byte) : Option Float64 :=
  let d := readFloat item
  let e10 : Int := (if d.eneg then -(d.e : Int) else (d.e : Int)) - (d.nfrac : Int)
  if 0 ≤ e10 then float64OfRatio d.neg (d.mant * 10 ^ e10.toNat) 1
  else float64OfRatio d.neg d.mant (10 ^ (-e10).toNat)

/-! ## `fmt.Sprintf("%.5f", x)` -/

/-- Five decimal digits of `n % 100000`, zero padded. -/
def fiveDigits (n : Nat) : String :=
  String.mk [Nat.digitChar (n / 10000 % 10), Nat.digitChar (n / 1000 % 10),
    Nat.digitChar (n / 100 % 10), Nat.digitChar (n / 10 % 10), Nat.digitChar (n % 10)]

/-- The magnitude of a finite value times `10^5`, rounded to the nearest integer,
ties to even (`decimal.Round` in `strconv`). -/
def Float64.scaled5 (x : Float64) : Nat :=
  roundHalfEven (x.significand * 2 ^ x.binExp * 10 ^ 5) (2 ^ 1075)

/-- The verb `%.5f` of `fmt` applied to a `float64` (`strconv.AppendFloat(_, x, 'f', 5, 64)`):
`NaN`, `+Inf`, `-Inf` for the special values, else sign, integer part, a point and
five digits. -/
def formatFloat5 (x : Float64) : String :=
  if x.exp = 2047 then
    if x.mant ≠ 0 then "NaN" else if x.neg then "-Inf" else "+Inf"
  else
    (if x.neg then "-" else "") ++ Nat.repr (x.scaled5 / 10 ^ 5) ++ "." ++ fiveDigits (x.scaled5 % 10 ^ 5)

/-! ## `encoding/json`: decoding the value (`decode.go`) -/

/-- The pieces of a valid JSON text: the delimiters the scanner reports and the
literals (strings, numbers, `true`, `false`, `null`) with their bytes. -/
inductive Token where
  | beginObject
  | endObject
  | beginArray
  | endArray
  | colon
  | comma
  | literal (item : List Byte)
  deriving DecidableEq

/-- The literal being read, if any, as a token (its bytes are kept in reverse). -/
def flushLiteral (cur : Option (List Byte)) : List Token :=
  match cur with
  | some item => [.literal item.reverse]
  | none => []

/-- Re-scan the bytes of a value with the scanner, as `decodeState` does, and cut
them into tokens: `scanBeginLiteral` opens a literal, `scanContinue` extends it,
every other opcode closes it. -/
def tokenize : scanner → Option (List Byte) → List Byte → List Token
  | _, cur, [] => flushLiteral cur
  | s, cur, c :: rest =>
    match s.doStep c with
    | (.scanContinue, s1) => tokenize s1 (cur.map (fun item => c :: item)) rest
    | (.scanBeginLiteral, s1) => tokenize s1 (some [c]) rest
    | (.scanSkipSpace, s1) => flushLiteral cur ++ tokenize s1 none rest
    | (.scanBeginObject, s1) => flushLiteral cur ++ .beginObject :: tokenize s1 none rest
    | (.scanEndObject, s1) => flushLiteral cur ++ .endObject :: tokenize s1 none rest
    | (.scanBeginArray, s1) => flushLiteral cur ++ .beginArray :: tokenize s1 none rest
    | (.scanEndArray, s1) => flushLiteral cur ++ .endArray :: tokenize s1 none rest
    | (.scanObjectKey, s1) => flushLiteral cur ++ .colon :: tokenize s1 none rest
    | (.scanObjectValue, s1) => flushLiteral cur ++ .comma :: tokenize s1 none rest
    | (.scanArrayValue, s1) => flushLiteral cur ++ .comma :: tokenize s1 none rest
    | (.scanEnd, _) => flushLiteral cur
    | (.scanError, _) => flushLiteral cur

/-- A JSON value.  Numbers and strings keep the bytes of their literal (a string
with its quotes), object keys too. -/
inductive JSON where
  | null
  | bool (b : Bool)
  | number (item : List Byte)
  | string (item : List Byte)
  | array (elems : List JSON)
  | object (members : List (List Byte × JSON))

/-- The value of a literal, told by its first byte as in `literalStore`. -/
def literalValue (item : List Byte) : JSON :=
  match item with
  | [] => .null
  | c :: _ =>
    if c == 110 then .null -- 'n'
    else if c == 116 then .bool true -- 't'
    else if c == 102 then .bool false -- 'f'
    else if c == 34 then .string item
    else .number item

/-- An array or object under construction: the values read so far, newest first,
and for an object the key waiting for its value. -/
inductive Frame where
  | array (acc : List JSON)
  | object (acc : List (List Byte × JSON)) (key : Option (List Byte))

/-- The containers that are open, innermost first, and the finished top-level value. -/
structure Builder where
  stack : List Frame
  result : Option JSON

/-- A complete value arrives: it is the result at top level, the next element of
the innermost array, or the key or the value of the next member of the innermost
object. -/
def Builder.value (b : Builder) (v : JSON) : Builder :=
  match b.stack with
  | [] => { b with result := some v }
  | .array acc :: st => { b with stack := .array (v :: acc) :: st }
  | .object acc (some k) :: st => { b with stack := .object ((k, v) :: acc) none :: st }
  | .object acc none :: st =>
    match v with
    | .string item => { b with stack := .object acc (some item) :: st }
    | _ => b

/-- One token of the value. -/
def Builder.token (b : Builder) : Token → Builder
  | .literal item => b.value (literalValue item)
  | .beginArray => { b with stack := .array [] :: b.stack }
  | .beginObject => { b with stack := .object [] none :: b.stack }
  | .endArray =>
    match b.stack with
    | .array acc :: st => ({ b with stack := st }).value (.array acc.reverse)
    | _ => b
  | .endObject =>
    match b.stack with
    | .object acc _ :: st => ({ b with stack := st }).value (.object acc.reverse)
    | _ => b
  | .colon => b
  | .comma => b

/-- The JSON value a valid text denotes. -/
def parseValue (data : List Byte) : Option JSON :=
  ((tokenize scanner.init none data).foldl Builder.token ⟨[], none⟩).result

/-! ### Strings: `unquoteBytes`, `utf8.DecodeRune`, `getu4` -/

/-- The rune `utf8.RuneError`, `U+FFFD`. -/
def RuneError : Nat := 0xFFFD

/-- A UTF-8 continuation byte, `0x80..0xBF`. -/
def isCont (b : Byte) : Bool := 0x80 ≤ b && b ≤ 0xBF

/-- The function `utf8.DecodeRune`: the first rune of `p` and its width in bytes;
`(RuneError, 1)` for an invalid or truncated encoding. -/
def DecodeRune (p : List Byte) : Nat × Nat :=
  match p with
  | [] => (RuneError, 0)
  | p0 :: t =>
    if p0 < 0x80 then (p0, 1)
    else if p0 < 0xC2 || 0xF4 < p0 then (RuneError, 1)
    else if p0 < 0xE0 then
      match t with
      | b1 :: _ => if isCont b1 then ((p0 % 32) * 64 + b1 % 64, 2) else (RuneError, 1)
      | _ => (RuneError, 1)
    else if p0 < 0xF0 then
      match t with
      | b1 :: b2 :: _ =>
        let lo := if p0 = 0xE0 then 0xA0 else 0x80
        let hi := if p0 = 0xED then 0x9F else 0xBF
        if lo ≤ b1 && b1 ≤ hi && isCont b2 then
          ((p0 % 16) * 4096 + (b1 % 64) * 64 + b2 % 64, 3)
        else (RuneError, 1)
      | _ => (RuneError, 1)
    else
      match t with
      | b1 :: b2 :: b3 :: _ =>
        let lo := if p0 = 0xF0 then 0x90 else 0x80
        let hi := if p0 = 0xF4 then 0x8F else 0xBF
        if lo ≤ b1 && b1 ≤ hi && isCont b2 && isCont b3 then
          ((p0 % 8) * 262144 + (b1 % 64) * 4096 + (b2 % 64) * 64 + b3 % 64, 4)
        else (RuneError, 1)
      | _ => (RuneError, 1)

/-- The value of a hexadecimal digit, if it is one. -/
def hexVal (c : Byte) : Option Nat :=
  if isDigit c then some (c - 48)
  else if 97 ≤ c && c ≤ 102 then some (c - 97 + 10)
  else if 65 ≤ c && c ≤ 70 then some (c - 65 + 10)
  else none

/-- The function `getu4`: the rune of a `\uXXXX` escape at the start of `s`, or
`none` (Go returns -1). -/
def getu4 (s : List Byte) : Option Nat :=
  match s with
  | 92 :: 117 :: a :: b :: c :: d :: _ =>
    match hexVal a, hexVal b, hexVal c, hexVal d with
    | some x, some y, some z, some w => some (((x * 16 + y) * 16 + z) * 16 + w)
    | _, _, _, _ => none
  | _ => none

/-- The function `utf16.DecodeRune`: the code point of a surrogate pair, or
`RuneError` when the pair is not valid. -/
def utf16DecodeRune (r1 r2 : Nat) : Nat :=
  if 0xD800 ≤ r1 && r1 < 0xDC00 && 0xDC00 ≤ r2 && r2 < 0xE000 then
    (r1 - 0xD800) * 1024 + (r2 - 0xDC00) + 0x10000
  else RuneError

/-- The loop of `unquoteBytes` over the bytes between the quotes.  `skip` bytes
have been consumed ahead already; `acc` holds the runes written, newest first. -/
def unquoteLoop : List Byte → Nat → List Char → Option (List Char)
  | [], _, acc => some acc.reverse
  | _ :: rest, skip + 1, acc => unquoteLoop rest skip acc
  | c :: rest, 0, acc =>
    if c == 92 then -- backslash
      match rest with
      | [] => none
      | e :: _ =>
        if e == 34 || e == 92 || e == 47 || e == 39 then unquoteLoop rest 1 (Char.ofNat e :: acc)
        else if e == 98 then unquoteLoop rest 1 (Char.ofNat 8 :: acc) -- \b
        else if e == 102 then unquoteLoop rest 1 (Char.ofNat 12 :: acc) -- \f
        else if e == 110 then unquoteLoop rest 1 (Char.ofNat 10 :: acc) -- \n
        else if e == 114 then unquoteLoop rest 1 (Char.ofNat 13 :: acc) -- \r
        else if e == 116 then unquoteLoop rest 1 (Char.ofNat 9 :: acc) -- \t
        else if e == 117 then -- \u
          match getu4 (c :: rest) with
          | none => none
          | some rr =>
            if 0xD800 ≤ rr && rr < 0xE000 then
              let dec := utf16DecodeRune rr ((getu4 (rest.drop 5)).getD RuneError)
              if dec ≠ RuneError then unquoteLoop rest 11 (Char.ofNat dec :: acc)
              else unquoteLoop rest 5 (Char.ofNat RuneError :: acc)
            else unquoteLoop rest 5 (Char.ofNat rr :: acc)
        else none
    else if c == 34 || c < 32 then none
    else if c < 0x80 then unquoteLoop rest 0 (Char.ofNat c :: acc)
    else
      let d := DecodeRune (c :: rest)
      unquoteLoop rest (d.2 - 1) (Char.ofNat d.1 :: acc)

/-- The function `unquoteBytes` on a string literal with its quotes: the Go string
it denotes, coerced to well-formed UTF-8. -/
def unquote (item : List Byte) : Option String :=
  match item with
  | 34 :: t =>
    if t.getLast? = some 34 then (unquoteLoop t.dropLast 0 []).map String.mk else none
  | _ => none

/-! ### The target type `[]exchangeRate` -/

/-- The Go struct `exchangeRate`. -/
structure exchangeRate where
  Rate : Float64
  Source : String
  Target : String
  deriving DecidableEq

/-- The zero value of `exchangeRate`. -/
def exchangeRate.zero : exchangeRate := ⟨⟨0⟩, "", ""⟩

/-- The fields of `exchangeRate`, in declaration order. -/
inductive Field where
  | Rate
  | Source
  | Target
  deriving DecidableEq

/-- The JSON name of a field, from its `json:"..."` tag. -/
def Field.name : Field → String
  | .Rate => "rate"
  | .Source => "source"
  | .Target => "target"

/-- The fold of a rune that `encoding/json` compares field names under, for the
runes that can fold to an ASCII letter: the lower-case ASCII letters go to upper
case, `U+017F` (long s) to `S`, `U+212A` (Kelvin sign) to `K`. -/
def foldRune (c : Char) : Char :=
  if 97 ≤ c.toNat && c.toNat ≤ 122 then Char.ofNat (c.toNat - 32)
  else if c.toNat = 0x17F then Char.ofNat 83
  else if c.toNat = 0x212A then Char.ofNat 75
  else c

/-- Whether `key` equals the ASCII field name `name` under case folding. -/
def equalFold (name key : String) : Bool :=
  name.toList.map foldRune == key.toList.map foldRune

/-- The field an object key selects: the one whose name is the key exactly, else
the first whose name equals it under case folding, else none (the member is skipped). -/
def lookupField (key : String) : Option Field :=
  match [Field.Rate, Field.Source, Field.Target].find? (fun f => f.name == key) with
  | some f => some f
  | none => [Field.Rate, Field.Source, Field.Target].find? (fun f => equalFold f.name key)

/-- The name `UnmarshalTypeError.Value` gives a JSON value that does not fit. -/
def JSON.kind : JSON → String
  | .null => "null"
  | .bool _ => "bool"
  | .number _ => "number"
  | .string _ => "string"
  | .array _ => "array"
  | .object _ => "object"

/-- The method `decodeState.saveError`: only the first error is kept. -/
def saveError (saved : Option JSONError) (e : JSONError) : Option JSONError :=
  match saved with
  | some e0 => some e0
  | none => some e

/-- Store a JSON value into the `float64` field: a number is parsed by `ParseFloat`
(out of range is a type error naming the literal), `null` leaves the field as it
is, any other value is a type error. -/
def storeFloat (cur : Float64) (saved : Option JSONError) (v : JSON) :
    Float64 × Option JSONError :=
  match v with
  | .null => (cur, saved)
  | .number item =>
    match ParseFloat item with
    | some x => (x, saved)
    | none =>
      (cur, saveError saved (.unmarshalType ("number " ++ String.mk (item.map Char.ofNat)) "float64"))
  | other => (cur, saveError saved (.unmarshalType other.kind "float64"))

/-- Store a JSON value into a `string` field: a string is unquoted, `null` leaves
the field as it is, any other value is a type error. -/
def storeString (cur : String) (saved : Option JSONError) (v : JSON) :
    String × Option JSONError :=
  match v with
  | .null => (cur, saved)
  | .string item => ((unquote item).getD cur, saved)
  | other => (cur, saveError saved (.unmarshalType other.kind "string"))

/-- One member of an object decoded into an `exchangeRate`: the key is unquoted and
looked up among the fields; a member that names no field is skipped. -/
def storeMember (acc : exchangeRate × Option JSONError) (m : List Byte × JSON) :
    exchangeRate × Option JSONError :=
  match lookupField ((unquote m.1).getD "") with
  | none => acc
  | some .Rate =>
    let r := storeFloat acc.1.Rate acc.2 m.2
    ({ acc.1 with Rate := r.1 }, r.2)
  | some .Source =>
    let r := storeString acc.1.Source acc.2 m.2
    ({ acc.1 with Source := r.1 }, r.2)
  | some .Target =>
    let r := storeString acc.1.Target acc.2 m.2
    ({ acc.1 with Target := r.1 }, r.2)

/-- One element of the array decoded into a fresh (zero) `exchangeRate`: an object
fills the fields its members name, in order; `null` leaves the zero value; any
other value is a type error and leaves the zero value. -/
def decodeElement (saved : Option JSONError) (v : JSON) : exchangeRate × Option JSONError :=
  match v with
  | .object members => members.foldl storeMember (exchangeRate.zero, saved)
  | .null => (exchangeRate.zero, saved)
  | other => (exchangeRate.zero, saveError saved (.unmarshalType other.kind "p.exchangeRate"))

/-- The elements of a JSON array decoded one after the other, each appended to the
slice whether or not it fits. -/
def decodeElements : List JSON → Option JSONError → List exchangeRate × Option JSONError
  | [], saved => ([], saved)
  | v :: vs, saved =>
    let r := decodeElement saved v
    let rs := decodeElements vs r.2
    (r.1 :: rs.1, rs.2)

/-- The method `decodeState.unmarshal` into a `*[]exchangeRate` that points to a nil
slice: an array gives one record per element, `null` the nil slice, anything else a
type error; the saved error, if any, is returned. -/
def unmarshalRates (v : JSON) : Except JSONError (List exchangeRate) :=
  match v with
  | .array elems =>
    match decodeElements elems none with
    | (rates, none) => .ok rates
    | (_, some e) => .error e
  | .null => .ok []
  | other => .error (.unmarshalType other.kind "[]p.exchangeRate")

/-- The call `json.NewDecoder(r).Decode(&rates)` with `var rates []exchangeRate`:
read the first JSON value of the stream, then decode those bytes.  What follows
the first value in the stream is not read by this call. -/
def Decode (r : Reader) : Except JSONError (List exchangeRate) :=
  match readValue r with
  | .error e => .error e
  | .ok n =>
    match parseValue (r.data.take n) with
    | some v => unmarshalRates v
    | none => .error .phase

/-! ## `json.Marshal` of a `slackMessage` -/

/-- The Go struct `slackMessageField`. -/
structure slackMessageField where
  Title : String
  Value : String
  Short : Bool
  deriving DecidableEq

/-- The Go struct `slackMessage`; a field that a struct literal leaves out has its
zero value. -/
structure slackMessage where
  Text : String := ""
  Username : String := ""
  IconURL : String := ""
  IconEmoji : String := ""
  Channel : String := ""
  Fallback : String := ""
  Pretext : String := ""
  Color : String := ""
  Fields : List slackMessageField := []
  deriving DecidableEq

/-- The value of a member of the marshalled message. -/
inductive MemberValue where
  | string (s : String)
  | fields (fs : List slackMessageField)
  deriving DecidableEq

/-- A marshalled JSON object: its members, key and value, in the order written. -/
abbrev JSONObject := List (String × MemberValue)

/-- A string field tagged `omitempty`: left out of the object when empty. -/
def omitemptyString (key value : String) : JSONObject :=
  if value = "" then [] else [(key, .string value)]

/-! ## Errors, requests, the environment -/

/-- A Go `error` value of this program. -/
inductive GoError where
  /-- An error made by `fmt.Errorf` whose arguments are all rendered in `text`. -/
  | errorf (text : String)
  /-- An error made by `fmt.Errorf(text + "%w", err)`: it wraps `err`, and its message
  is `text` followed by the message of `err`. -/
  | wrapf (text : String) (err : GoError)
  /-- The error of `envconfig.Process` for a required variable that is not set; its
  message is `required key KEY missing value`. -/
  | envconfig (key : String)
  /-- An error of `http.NewRequestWithContext` (the URL does not parse). -/
  | newRequest (msg : String)
  /-- An error of `http.DefaultClient.Do`: connection failure, timeout. -/
  | transport (msg : String)
  /-- An error of `json.Decoder.Decode`. -/
  | json (e : JSONError)
  deriving DecidableEq

/-- The call `json.Marshal(msg)` for a `slackMessage`: the members in field order,
`text` always, every other one unless it is empty.  It returns no error for this
type. -/
def Marshal (msg : slackMessage) : Except GoError JSONObject :=
  .ok ([("text", .string msg.Text)]
    ++ omitemptyString "username" msg.Username
    ++ omitemptyString "icon_url" msg.IconURL
    ++ omitemptyString "icon_emoji" msg.IconEmoji
    ++ omitemptyString "channel" msg.Channel
    ++ omitemptyString "fallback" msg.Fallback
    ++ omitemptyString "pretext" msg.Pretext
    ++ omitemptyString "color" msg.Color
    ++ (if msg.Fields = [] then [] else [("fields", .fields msg.Fields)]))

/-- An `*http.Request`: method, URL, headers (newest first) and the body, `none`
for a `nil` body. -/
structure Request where
  Method : String
  URL : String
  Header : List (String × String)
  Body : Option JSONObject
  deriving DecidableEq

/-- The call `req.Header.Set(key, value)`: the entry replaces any other for `key`. -/
def Request.HeaderSet (req : Request) (key value : String) : Request :=
  { req with Header := (key, value) :: req.Header.filter (fun kv => kv.1 ≠ key) }

/-- An `*http.Response`: the status code, the status text such as `404 Not Found`,
and the body stream. -/
structure Response where
  StatusCode : Int
  Status : String
  Body : Reader
  deriving DecidableEq

/-- The constant `http.StatusOK`. -/
def StatusOK : Int := 200

/-- The endpoint `getExchangeRate` queries. -/
def rateURL : String := "https://api.transferwise.com/v1/rates?source=USD&target=AUD"

/-- The `User-Agent` both requests carry. -/
def userAgent : String := "github.com/porty/transferwise-exchange-rate"

/-- What surrounds one invocation: the process environment (`os.LookupEnv`), the URL
parser behind `http.NewRequestWithContext` (`urlError u` is the error for a URL
that does not parse), and the network as `http.DefaultClient.Do` answers a request
within the 5 second deadline of its context (a response, or a transport error such
as a timeout).  The literal endpoint `rateURL` parses. -/
structure Env where
  LookupEnv : String → Option String
  urlError : String → Option String
  Do : Request → Except String Response
  rateURL_parses : urlError rateURL = none

/-- What the program does to the outside world, in order. -/
inductive Event where
  /-- The function `getExchangeRate` is entered. -/
  | getExchangeRate (apiKey : String)
  /-- The function `sendToSlack` is entered. -/
  | sendToSlack (slackURL : String) (rate : Float64)
  /-- The request `req` is handed to `http.DefaultClient.Do`. -/
  | Do (req : Request)
  deriving DecidableEq

/-- A returned value together with the events of the call. -/
structure Ret (α : Type) where
  val : α
  trace : List Event

/-- The call `http.NewRequestWithContext(ctx, method, url, body)` with a valid
method and a live context: it fails exactly when the URL does not parse. -/
def NewRequestWithContext (env : Env) (method url : String) (body : Option JSONObject) :
    Except GoError Request :=
  match env.urlError url with
  | some msg => .error (.newRequest msg)
  | none => .ok ⟨method, url, [], body⟩

/-! ## `p/cloud.go` -/

/-- The Go struct `PubSubMessage`. -/
structure PubSubMessage where
  Data : List Byte

/-- The Go struct `Config`; both fields are tagged `required:"true"`. -/
structure Config where
  TransferwiseAPIKey : String
  SlackWebhookURL : String
  deriving DecidableEq

/-- The call `envconfig.Process("", &config)`: the fields are filled in declaration
order from the variables their tags name; a required variable that is not set
(`os.LookupEnv` reports it missing) is an error; a variable set to the empty string
is present. -/
def envconfig.Process (env : Env) : Except GoError Config :=
  match env.LookupEnv "TRANSFERWISE_API_KEY" with
  | none => .error (.envconfig "TRANSFERWISE_API_KEY")
  | some apiKey =>
    match env.LookupEnv "SLACK_WEBHOOK_URL" with
    | none => .error (.envconfig "SLACK_WEBHOOK_URL")
    | some slackURL => .ok ⟨apiKey, slackURL⟩

/-- The request `getExchangeRate` sends: a `GET` of `rateURL` with the two headers. -/
def rateRequest (apiKey : String) : Request :=
  ((⟨"GET", rateURL, [], none⟩ : Request).HeaderSet "User-Agent" userAgent).HeaderSet
    "Authorization" ("Bearer " ++ apiKey)

/-- The function `getExchangeRate(apiKey string) (float64, error)`. -/
def getExchangeRate (env : Env) (apiKey : String) : Ret (Float64 × Option GoError) :=
  match NewRequestWithContext env "GET" rateURL none with
  | .error err =>
    ⟨(⟨0⟩, some (.wrapf "failed to create exchange rate request: " err)),
      [.getExchangeRate apiKey]⟩
  | .ok req0 =>
    let req := (req0.HeaderSet "User-Agent" userAgent).HeaderSet "Authorization" ("Bearer " ++ apiKey)
    match env.Do req with
    | .error msg =>
      ⟨(⟨0⟩, some (.wrapf "failed to send exchange rate request: " (.transport msg))),
        [.getExchangeRate apiKey, .Do req]⟩
    | .ok resp =>
      if resp.StatusCode ≠ StatusOK then
        ⟨(⟨0⟩, some (.errorf ("bad status code from exchange rate API: " ++ resp.Status))),
          [.getExchangeRate apiKey, .Do req]⟩
      else
        match Decode resp.Body with
        | .error err =>
          ⟨(⟨0⟩, some (.wrapf "failed to unmarshal exchange rate API response: " (.json err))),
            [.getExchangeRate apiKey, .Do req]⟩
        | .ok rates =>
          if h : rates.length ≠ 1 then
            ⟨(⟨0⟩, some (.errorf ("expected one exchange rate, recieved " ++ Nat.repr rates.length))),
              [.getExchangeRate apiKey, .Do req]⟩
          else
            ⟨((rates.get ⟨0, by omega⟩).Rate, none), [.getExchangeRate apiKey, .Do req]⟩

/-- The struct literal `sendToSlack` builds for a rate. -/
def newSlackMessage (rate : Float64) : slackMessage :=
  { Text := "The exchange rate is " ++ formatFloat5 rate
    IconEmoji := ":moneybag:"
    Username := "TransferwiseBot"
    Channel := "transferwise" }

/-- The function `sendToSlack(slackURL string, rate float64) error`. -/
def sendToSlack (env : Env) (slackURL : String) (rate : Float64) : Ret (Option GoError) :=
  let msg := newSlackMessage rate
  match Marshal msg with
  | .error err =>
    ⟨some (.wrapf "failed to JSON marshal Slack message: " err), [.sendToSlack slackURL rate]⟩
  | .ok b =>
    match NewRequestWithContext env "POST" slackURL (some b) with
    | .error err =>
      ⟨some (.wrapf "failed to create Slack webhook request: " err), [.sendToSlack slackURL rate]⟩
    | .ok req0 =>
      let req := req0.HeaderSet "User-Agent" userAgent
      match env.Do req with
      | .error msg =>
        ⟨some (.wrapf "failed to send Slack webhook request: " (.transport msg)),
          [.sendToSlack slackURL rate, .Do req]⟩
      | .ok resp =>
        if resp.StatusCode ≠ StatusOK then
          ⟨some (.errorf ("bad status code from Slack webhook: " ++ resp.Status)),
            [.sendToSlack slackURL rate, .Do req]⟩
        else ⟨none, [.sendToSlack slackURL rate, .Do req]⟩

/-- The function `HelloPubSub(ctx, m) error`. -/
def HelloPubSub (env : Env) (_m : PubSubMessage) : Ret (Option GoError) :=
  match envconfig.Process env with
  | .error err => ⟨some (.wrapf "failed to process env vars: " err), []⟩
  | .ok config =>
    let r := getExchangeRate env config.TransferwiseAPIKey
    match r.val.2 with
    | some err => ⟨some err, r.trace⟩
    | none =>
      let s := sendToSlack env config.SlackWebhookURL r.val.1
      match s.val with
      | some err => ⟨some err, r.trace ++ s.trace⟩
      | none => ⟨none, r.trace ++ s.trace⟩

/-- The request `sendToSlack` sends for a rate: a `POST` of the marshalled message to
the webhook URL, with the `User-Agent` header. -/
def slackRequest (slackURL : String) (rate : Float64) : Request :=
  (⟨"POST", slackURL, [], (Marshal (newSlackMessage rate)).toOption⟩ : Request).HeaderSet
    "User-Agent" userAgent

/-- The requests of a trace, in order. -/
def requests (trace : List Event) : List Request :=
  trace.filterMap (fun ev => match ev with
    | .Do req => some req
    | _ => none)

/-- The calls of `sendToSlack` in a trace. -/
def slackCalls (trace : List Event) : List (String × Float64) :=
  trace.filterMap (fun ev => match ev with
    | .sendToSlack slackURL rate => some (slackURL, rate)
    | _ => none)

/-- Whether a text ends with a decimal point followed by five decimal digits. -/
def endsWithFiveDecimals (s : String) : Bool :=
  match s.data.reverse with
  | d5 :: d4 :: d3 :: d2 :: d1 :: dot :: _ =>
    dot.toNat == 46 && isDigit d1.toNat && isDigit d2.toNat && isDigit d3.toNat
      && isDigit d4.toNat && isDigit d5.toNat
  | _ => false

/-- The opcode of the method `scanner.eof`: `scanEnd` when the input may end here,
`scanError` otherwise (an earlier error, or `unexpected end of JSON input`). -/
def scanner.eof (s : scanner) : Opcode :=
  if s.err.isSome then .scanError
  else if s.endTop then .scanEnd
  else if (s.doStep 32).2.endTop then .scanEnd
  else .scanError

/-- The loop of `checkValid` over the bytes. -/
def checkValidLoop : scanner → List Byte → Bool
  | s, [] => decide (s.eof ≠ .scanError)
  | s, c :: rest =>
    match s.doStep c with
    | (.scanError, _) => false
    | (_, s1) => checkValidLoop s1 rest

/-- The function `json.Valid`: whether the whole of `data` is one well-formed JSON
value, surrounded by space at most. -/
def Valid (data : List Byte) : Bool := checkValidLoop scanner.init data

/-- The binary64 `0.015625 = 2^-6` (`math.Float64bits(0.015625)`): scaled by `10^5` it
is `1562.5`, a tie. -/
def tieRate : Float64 := ⟨4580160821035794432⟩

/-- A body with one record whose rate is the tie `0.015625`. -/
def tieBody : List Byte :=
  asciiBytes "[\x7b\"rate\":0.015625,\"source\":\"USD\",\"target\":\"AUD\"\x7d]"

/-! ## Sample environments -/

/-- The body of the specification's example: one record, rate 1.41523, USD to AUD. -/
def sampleBody : List Byte :=
  asciiBytes "[\x7b\"rate\":1.41523,\"source\":\"USD\",\"target\":\"AUD\"\x7d]"

/-- The binary64 nearest to 1.41523 (`math.Float64bits(1.41523)`). -/
def sampleRate : Float64 := ⟨4609052448473290459⟩

/-- An environment with both variables set, every URL parsing, the rate API
answering with `rateResp` and the webhook with `hookResp`. -/
def sampleEnv (rateResp hookResp : Except String Response) : Env :=
  { LookupEnv := fun k =>
      if k = "TRANSFERWISE_API_KEY" then some "secret"
      else if k = "SLACK_WEBHOOK_URL" then some "https://hooks.slack.com/services/T/B/X"
      else none
    urlError := fun _ => none
    Do := fun req => if req.Method = "GET" then rateResp else hookResp
    rateURL_parses := rfl }

/-- A response with status `200 OK` and the given body, read to the end. -/
def ok200 (body : List Byte) : Except String Response :=
  .ok ⟨200, "200 OK", ⟨body, none⟩⟩

/-! ## More sample inputs -/

/-- A body with two records. -/
def twoRecordsBody : List Byte :=
  asciiBytes "[\x7b\"rate\":1.41523,\"source\":\"USD\",\"target\":\"AUD\"\x7d,\x7b\"rate\":2,\"source\":\"USD\",\"target\":\"NZD\"\x7d]"

/-- The sample record with the currencies EUR and GBP instead of USD and AUD. -/
def eurGbpBody : List Byte :=
  asciiBytes "[\x7b\"rate\":1.41523,\"source\":\"EUR\",\"target\":\"GBP\"\x7d]"

/-- An environment in which only `TRANSFERWISE_API_KEY` is set. -/
def noWebhookEnv : Env :=
  { LookupEnv := fun k => if k = "TRANSFERWISE_API_KEY" then some "secret" else none
    urlError := fun _ => none
    Do := fun _ => ok200 sampleBody
    rateURL_parses := rfl }

/-- The sample body followed by bytes that are not JSON. -/
def trailingBody : List Byte := sampleBody ++ asciiBytes "] not JSON"

/-! ## The phases of the scanner, for the proofs about `readValueLoop` -/

/-- The scanner is inside an array or object. -/
def scanner.inner (s : scanner) : Prop := s.parseState ≠ [] ∧ s.step ≠ .stateEndTop

/-- After a closing bracket: either the top-level value is complete, or the scanner
is still inside a container and waits for the end of a value. -/
def closes (s2 : scanner) : Prop :=
  (s2.parseState = [] ∧ (stateEndValue s2 32).1 = .scanEnd)
    ∨ (s2.inner ∧ stateEndValue s2 32 = (.scanSkipSpace, s2))

/-- What a step from inside a container can give. -/
def innerPost : Opcode × scanner → Prop
  | (.scanEnd, _) => False
  | (.scanEndObject, s2) => closes s2
  | (.scanEndArray, s2) => closes s2
  | (.scanError, _) => True
  | (_, s2) => s2.inner

/-- The states inside a number literal. -/
def Step.isNumber : Step → Bool
  | .stateNeg | .state1 | .state0 | .stateDot | .stateDot0 | .stateE | .stateESign | .stateE0 => true
  | _ => false

/-- The states inside a string or inside `true`, `false`, `null`, and the state
after such a literal. -/
def Step.isQuoted : Step → Bool
  | .stateInString | .stateInStringEsc | .stateInStringEscU | .stateInStringEscU1
  | .stateInStringEscU12 | .stateInStringEscU123 | .stateT | .stateTr | .stateTru | .stateF
  | .stateFa | .stateFal | .stateFals | .stateN | .stateNu | .stateNul | .stateEndValue => true
  | _ => false

/-- What a step inside a top-level literal can give: the literal goes on, or the
value ends before this byte, or an error. -/
def literalPost (num : Bool) : Opcode × scanner → Prop
  | (.scanContinue, s2) =>
    s2.parseState = [] ∧ (if num then s2.step.isNumber = true else s2.step.isQuoted = true)
  | (.scanEnd, _) => True
  | (.scanError, _) => True
  | _ => False

/-- The first byte of a number literal: `-` or a digit. -/
def isNumberStart (c : Byte) : Bool := c == 45 || isDigit c

/-- What a step before the top-level value can give. -/
def beginPost (s : scanner) (c : Byte) : Opcode × scanner → Prop
  | (.scanSkipSpace, s2) => s2 = s
  | (.scanBeginObject, s2) => s2.inner
  | (.scanBeginArray, s2) => s2.inner
  | (.scanBeginLiteral, s2) =>
    s2.parseState = [] ∧ ((isNumberStart c = true ∧ s2.step.isNumber = true)
      ∨ s2.step.isQuoted = true)
  | (.scanError, _) => True
  | _ => False

/-! ## Lemmas on the control flow -/

theorem newRequest_rate (env : Env) :
    NewRequestWithContext env "GET" rateURL none = .ok ⟨"GET", rateURL, [], none⟩ := by
  simp [NewRequestWithContext, env.rateURL_parses]

/-- The function `getExchangeRate` once the request is built: what remains depends
on the answer to `rateRequest apiKey` only. -/
theorem getExchangeRate_eq (env : Env) (apiKey : String) :
    getExchangeRate env apiKey =
      match env.Do (rateRequest apiKey) with
      | .error msg =>
        ⟨(⟨0⟩, some (.wrapf "failed to send exchange rate request: " (.transport msg))),
          [.getExchangeRate apiKey, .Do (rateRequest apiKey)]⟩
      | .ok resp =>
        if resp.StatusCode ≠ StatusOK then
          ⟨(⟨0⟩, some (.errorf ("bad status code from exchange rate API: " ++ resp.Status))),
            [.getExchangeRate apiKey, .Do (rateRequest apiKey)]⟩
        else
          match Decode resp.Body with
          | .error err =>
            ⟨(⟨0⟩, some (.wrapf "failed to unmarshal exchange rate API response: " (.json err))),
              [.getExchangeRate apiKey, .Do (rateRequest apiKey)]⟩
          | .ok rates =>
            if rates.length ≠ 1 then
              ⟨(⟨0⟩, some (.errorf ("expected one exchange rate, recieved " ++ Nat.repr rates.length))),
                [.getExchangeRate apiKey, .Do (rateRequest apiKey)]⟩
            else
              ⟨((rates.headD exchangeRate.zero).Rate, none),
                [.getExchangeRate apiKey, .Do (rateRequest apiKey)]⟩ := by
  unfold getExchangeRate
  rw [newRequest_rate]
  simp only [rateRequest]
  cases hdo : env.Do ((({ Method := "GET", URL := rateURL, Header := [], Body := none } :
      Request).HeaderSet "User-Agent" userAgent).HeaderSet "Authorization" ("Bearer " ++ apiKey)) with
  | error msg => rfl
  | ok resp =>
    simp only []
    split
    · rfl
    · cases hdec : Decode resp.Body with
      | error err => rfl
      | ok rates =>
        simp only []
        split
        · rfl
        · rename_i hlen
          have h1 : rates.length = 1 := by omega
          match rates, h1 with
          | [r], _ => rfl

/-- Every call of `getExchangeRate` sends the request `rateRequest apiKey`, once,
and nothing else. -/
theorem getExchangeRate_trace (env : Env) (apiKey : String) :
    (getExchangeRate env apiKey).trace = [.getExchangeRate apiKey, .Do (rateRequest apiKey)] := by
  rw [getExchangeRate_eq]
  cases env.Do (rateRequest apiKey) with
  | error msg => rfl
  | ok resp =>
    simp only []
    split
    · rfl
    · cases Decode resp.Body with
      | error err => rfl
      | ok rates =>
        simp only []
        split <;> rfl

/-! ## The rate fetcher -/

/-- C1: when the rate API answers with status 200 and the body decodes to an array
of exactly one record, `getExchangeRate` returns that record's rate, unchanged, and
a nil error. -/
theorem getExchangeRate_single_record (env : Env) (apiKey : String) (resp : Response)
    (r : exchangeRate) (hdo : env.Do (rateRequest apiKey) = .ok resp)
    (hstatus : resp.StatusCode = StatusOK) (hdec : Decode resp.Body = .ok [r]) :
    (getExchangeRate env apiKey).val = (r.Rate, none) := by
  rw [getExchangeRate_eq, hdo]
  simp [hstatus, hdec]

theorem getExchangeRate_single_record_witness :
    (getExchangeRate (sampleEnv (ok200 sampleBody) (ok200 [])) "secret").val
      = (sampleRate, none) :=
  getExchangeRate_single_record (sampleEnv (ok200 sampleBody) (ok200 [])) "secret"
    ⟨200, "200 OK", ⟨sampleBody, none⟩⟩ ⟨sampleRate, "USD", "AUD"⟩
    (by decide) (by decide) (by decide)

/-- C2: when the rate API answers with status 200 and the body decodes to `n` records
with `n ≠ 1`, `getExchangeRate` returns rate 0 and the error
`expected one exchange rate, recieved n`; no record's rate is returned. -/
theorem getExchangeRate_count_mismatch (env : Env) (apiKey : String) (resp : Response)
    (rates : List exchangeRate) (hdo : env.Do (rateRequest apiKey) = .ok resp)
    (hstatus : resp.StatusCode = StatusOK) (hdec : Decode resp.Body = .ok rates)
    (hlen : rates.length ≠ 1) :
    (getExchangeRate env apiKey).val =
      (⟨0⟩, some (.errorf ("expected one exchange rate, recieved " ++ Nat.repr rates.length))) := by
  rw [getExchangeRate_eq, hdo]
  simp [hstatus, hdec, hlen]

theorem getExchangeRate_count_mismatch_witness :
    (getExchangeRate (sampleEnv (ok200 twoRecordsBody) (ok200 [])) "secret").val
      = (⟨0⟩, some (.errorf "expected one exchange rate, recieved 2")) :=
  getExchangeRate_count_mismatch (sampleEnv (ok200 twoRecordsBody) (ok200 [])) "secret"
    ⟨200, "200 OK", ⟨twoRecordsBody, none⟩⟩
    [⟨sampleRate, "USD", "AUD"⟩, ⟨⟨4611686018427387904⟩, "USD", "NZD"⟩]
    (by decide) (by decide) (by decide) (by decide)

/-- C4: when the rate API answers with a status code other than 200,
`getExchangeRate` returns rate 0 and the error
`bad status code from exchange rate API: ` followed by the response's status text;
the body plays no part: any other response with the same status code and text, with
whatever body, gives the same result. -/
theorem getExchangeRate_bad_status (env : Env) (apiKey : String) (resp : Response)
    (hdo : env.Do (rateRequest apiKey) = .ok resp) (hstatus : resp.StatusCode ≠ StatusOK) :
    (getExchangeRate env apiKey).val =
        (⟨0⟩, some (.errorf ("bad status code from exchange rate API: " ++ resp.Status)))
      ∧ ∀ (env2 : Env) (body : Reader),
          env2.Do (rateRequest apiKey) = .ok { resp with Body := body } →
          (getExchangeRate env2 apiKey).val = (getExchangeRate env apiKey).val := by
  have h1 : ∀ (e : Env) (rsp : Response), e.Do (rateRequest apiKey) = .ok rsp →
      rsp.StatusCode ≠ StatusOK →
      (getExchangeRate e apiKey).val =
        (⟨0⟩, some (.errorf ("bad status code from exchange rate API: " ++ rsp.Status))) := by
    intro e rsp hd hs
    rw [getExchangeRate_eq, hd]
    simp [hs]
  refine ⟨h1 env resp hdo hstatus, ?_⟩
  intro env2 body hdo2
  rw [h1 env resp hdo hstatus, h1 env2 _ hdo2 hstatus]

theorem getExchangeRate_bad_status_witness :
    (getExchangeRate (sampleEnv (.ok ⟨503, "503 Service Unavailable", ⟨sampleBody, none⟩⟩)
        (ok200 [])) "secret").val
      = (⟨0⟩, some (.errorf "bad status code from exchange rate API: 503 Service Unavailable")) :=
  (getExchangeRate_bad_status
    (sampleEnv (.ok ⟨503, "503 Service Unavailable", ⟨sampleBody, none⟩⟩) (ok200 [])) "secret"
    ⟨503, "503 Service Unavailable", ⟨sampleBody, none⟩⟩ (by decide) (by decide)).1

/-- C10: `getExchangeRate` does not look at the `source` and `target` of the record:
two status-200 answers that each decode to one record, with the same rate and any
currency codes, give the same rate and a nil error. -/
theorem getExchangeRate_ignores_currencies (env1 env2 : Env) (apiKey1 apiKey2 : String)
    (resp1 resp2 : Response) (r1 r2 : exchangeRate)
    (hdo1 : env1.Do (rateRequest apiKey1) = .ok resp1) (hs1 : resp1.StatusCode = StatusOK)
    (hdec1 : Decode resp1.Body = .ok [r1])
    (hdo2 : env2.Do (rateRequest apiKey2) = .ok resp2) (hs2 : resp2.StatusCode = StatusOK)
    (hdec2 : Decode resp2.Body = .ok [r2])
    (hrate : r1.Rate = r2.Rate) :
    (getExchangeRate env1 apiKey1).val = (r1.Rate, none)
      ∧ (getExchangeRate env2 apiKey2).val = (getExchangeRate env1 apiKey1).val := by
  have e1 : (getExchangeRate env1 apiKey1).val = (r1.Rate, none) := by
    rw [getExchangeRate_eq, hdo1]
    simp [hs1, hdec1]
  have e2 : (getExchangeRate env2 apiKey2).val = (r2.Rate, none) := by
    rw [getExchangeRate_eq, hdo2]
    simp [hs2, hdec2]
  exact ⟨e1, by rw [e1, e2, hrate]⟩

theorem getExchangeRate_ignores_currencies_witness :
    (getExchangeRate (sampleEnv (ok200 sampleBody) (ok200 [])) "secret").val = (sampleRate, none)
      ∧ (getExchangeRate (sampleEnv (ok200 eurGbpBody) (ok200 [])) "secret").val
        = (getExchangeRate (sampleEnv (ok200 sampleBody) (ok200 [])) "secret").val :=
  getExchangeRate_ignores_currencies (sampleEnv (ok200 sampleBody) (ok200 []))
    (sampleEnv (ok200 eurGbpBody) (ok200 [])) "secret" "secret"
    ⟨200, "200 OK", ⟨sampleBody, none⟩⟩ ⟨200, "200 OK", ⟨eurGbpBody, none⟩⟩
    ⟨sampleRate, "USD", "AUD"⟩ ⟨sampleRate, "EUR", "GBP"⟩
    (by decide) (by decide) (by decide) (by decide) (by decide) (by decide) rfl

/-! ## The notifier -/

/-- The marshalled message of `sendToSlack`: the four members, in field order. -/
theorem Marshal_newSlackMessage (rate : Float64) :
    Marshal (newSlackMessage rate) = .ok
      [("text", .string ("The exchange rate is " ++ formatFloat5 rate)),
       ("username", .string "TransferwiseBot"),
       ("icon_emoji", .string ":moneybag:"),
       ("channel", .string "transferwise")] := by
  simp [Marshal, newSlackMessage, omitemptyString]

/-- The function `sendToSlack` once the message is marshalled and the request built. -/
theorem sendToSlack_eq (env : Env) (slackURL : String) (rate : Float64) :
    sendToSlack env slackURL rate =
      match env.urlError slackURL with
      | some msg =>
        ⟨some (.wrapf "failed to create Slack webhook request: " (.newRequest msg)),
          [.sendToSlack slackURL rate]⟩
      | none =>
        match env.Do (slackRequest slackURL rate) with
        | .error msg =>
          ⟨some (.wrapf "failed to send Slack webhook request: " (.transport msg)),
            [.sendToSlack slackURL rate, .Do (slackRequest slackURL rate)]⟩
        | .ok resp =>
          if resp.StatusCode ≠ StatusOK then
            ⟨some (.errorf ("bad status code from Slack webhook: " ++ resp.Status)),
              [.sendToSlack slackURL rate, .Do (slackRequest slackURL rate)]⟩
          else ⟨none, [.sendToSlack slackURL rate, .Do (slackRequest slackURL rate)]⟩ := by
  unfold sendToSlack slackRequest
  simp only [Marshal_newSlackMessage, NewRequestWithContext]
  cases env.urlError slackURL with
  | some msg => rfl
  | none => rfl

/-- C9: for every webhook URL and rate, the message of `sendToSlack` has icon
`:moneybag:`, user name `TransferwiseBot` and channel `transferwise`; it marshals to
an object with exactly the keys `text`, `username`, `icon_emoji`, `channel`, and
every request `sendToSlack` sends carries that object as its body. -/
theorem sendToSlack_fixed_metadata (env : Env) (slackURL : String) (rate : Float64) :
    (newSlackMessage rate).IconEmoji = ":moneybag:"
      ∧ (newSlackMessage rate).Username = "TransferwiseBot"
      ∧ (newSlackMessage rate).Channel = "transferwise"
      ∧ ∃ obj : JSONObject, Marshal (newSlackMessage rate) = .ok obj
          ∧ obj.map Prod.fst = ["text", "username", "icon_emoji", "channel"]
          ∧ obj.lookup "username" = some (.string "TransferwiseBot")
          ∧ obj.lookup "icon_emoji" = some (.string ":moneybag:")
          ∧ obj.lookup "channel" = some (.string "transferwise")
          ∧ ∀ req ∈ requests (sendToSlack env slackURL rate).trace,
              req.Method = "POST" ∧ req.URL = slackURL ∧ req.Body = some obj := by
  refine ⟨rfl, rfl, rfl, _, Marshal_newSlackMessage rate, rfl, by simp [List.lookup],
    by simp [List.lookup], by simp [List.lookup], ?_⟩
  intro req hreq
  have hbody : (slackRequest slackURL rate).Body = some
      [("text", .string ("The exchange rate is " ++ formatFloat5 rate)),
       ("username", .string "TransferwiseBot"),
       ("icon_emoji", .string ":moneybag:"),
       ("channel", .string "transferwise")] := by
    simp [slackRequest, Request.HeaderSet, Marshal_newSlackMessage, Except.toOption]
  have hsub : requests (sendToSlack env slackURL rate).trace = []
      ∨ requests (sendToSlack env slackURL rate).trace = [slackRequest slackURL rate] := by
    rw [sendToSlack_eq]
    cases env.urlError slackURL with
    | some msg => left; rfl
    | none =>
      right
      simp only []
      cases env.Do (slackRequest slackURL rate) with
      | error msg => rfl
      | ok resp =>
        simp only []
        split <;> rfl
  rcases hsub with h | h
  · rw [h] at hreq
    cases hreq
  · rw [h] at hreq
    have : req = slackRequest slackURL rate := by simpa using hreq
    subst this
    exact ⟨rfl, rfl, hbody⟩

/-! ## The entry point -/

/-- C3: when the configuration loads and `getExchangeRate` returns an error,
`HelloPubSub` returns that same error, its events are those of `getExchangeRate`
alone, `sendToSlack` is not called, and the only request is the one to the rate API. -/
theorem HelloPubSub_fetch_error (env : Env) (m : PubSubMessage) (config : Config)
    (err : GoError) (hconfig : envconfig.Process env = .ok config)
    (hfetch : (getExchangeRate env config.TransferwiseAPIKey).val.2 = some err) :
    (HelloPubSub env m).val = some err
      ∧ (HelloPubSub env m).trace = (getExchangeRate env config.TransferwiseAPIKey).trace
      ∧ slackCalls (HelloPubSub env m).trace = []
      ∧ requests (HelloPubSub env m).trace = [rateRequest config.TransferwiseAPIKey] := by
  have hval : (HelloPubSub env m).val = some err := by
    simp [HelloPubSub, hconfig, hfetch]
  have htrace : (HelloPubSub env m).trace
      = (getExchangeRate env config.TransferwiseAPIKey).trace := by
    simp [HelloPubSub, hconfig, hfetch]
  refine ⟨hval, htrace, ?_, ?_⟩
  · rw [htrace, getExchangeRate_trace]
    rfl
  · rw [htrace, getExchangeRate_trace]
    rfl

theorem HelloPubSub_fetch_error_witness :
    (HelloPubSub (sampleEnv (ok200 (asciiBytes "[]")) (ok200 [])) ⟨[]⟩).val
        = some (.errorf "expected one exchange rate, recieved 0")
      ∧ slackCalls (HelloPubSub (sampleEnv (ok200 (asciiBytes "[]")) (ok200 [])) ⟨[]⟩).trace = []
      ∧ requests (HelloPubSub (sampleEnv (ok200 (asciiBytes "[]")) (ok200 [])) ⟨[]⟩).trace
        = [rateRequest "secret"] :=
  have h := HelloPubSub_fetch_error (sampleEnv (ok200 (asciiBytes "[]")) (ok200 [])) ⟨[]⟩
    ⟨"secret", "https://hooks.slack.com/services/T/B/X"⟩
    (.errorf "expected one exchange rate, recieved 0") (by decide) (by decide)
  ⟨h.1, h.2.2.1, h.2.2.2⟩

/-- C5: when `TRANSFERWISE_API_KEY` or `SLACK_WEBHOOK_URL` is not set, `HelloPubSub`
returns the error `failed to process env vars: ` wrapping the configuration error for
the first missing variable, and nothing happens: no request, no call of
`getExchangeRate` or `sendToSlack`. -/
theorem HelloPubSub_missing_env (env : Env) (m : PubSubMessage)
    (hmissing : env.LookupEnv "TRANSFERWISE_API_KEY" = none
      ∨ env.LookupEnv "SLACK_WEBHOOK_URL" = none) :
    (∃ key, (key = "TRANSFERWISE_API_KEY" ∨ key = "SLACK_WEBHOOK_URL")
        ∧ env.LookupEnv key = none
        ∧ (HelloPubSub env m).val
          = some (.wrapf "failed to process env vars: " (.envconfig key)))
      ∧ (HelloPubSub env m).trace = [] := by
  cases h1 : env.LookupEnv "TRANSFERWISE_API_KEY" with
  | none =>
    refine ⟨⟨"TRANSFERWISE_API_KEY", Or.inl rfl, h1, ?_⟩, ?_⟩ <;>
      simp [HelloPubSub, envconfig.Process, h1]
  | some apiKey =>
    have h2 : env.LookupEnv "SLACK_WEBHOOK_URL" = none := by
      rcases hmissing with h | h
      · rw [h1] at h
        cases h
      · exact h
    refine ⟨⟨"SLACK_WEBHOOK_URL", Or.inr rfl, h2, ?_⟩, ?_⟩ <;>
      simp [HelloPubSub, envconfig.Process, h1, h2]

theorem HelloPubSub_missing_env_witness :
    (∃ key, (key = "TRANSFERWISE_API_KEY" ∨ key = "SLACK_WEBHOOK_URL")
        ∧ noWebhookEnv.LookupEnv key = none
        ∧ (HelloPubSub noWebhookEnv ⟨[]⟩).val
          = some (.wrapf "failed to process env vars: " (.envconfig key)))
      ∧ (HelloPubSub noWebhookEnv ⟨[]⟩).trace = [] :=
  HelloPubSub_missing_env noWebhookEnv ⟨[]⟩ (Or.inr (by decide))

/-- C7: when the configuration loads, the rate fetch succeeds, the webhook request
is built and the webhook answers with a status code other than 200, `HelloPubSub`
returns the error `bad status code from Slack webhook: ` followed by the status text,
and the requests made are exactly the rate API request followed by the webhook
request. -/
theorem HelloPubSub_webhook_bad_status (env : Env) (m : PubSubMessage) (config : Config)
    (resp : Response) (hconfig : envconfig.Process env = .ok config)
    (hfetch : (getExchangeRate env config.TransferwiseAPIKey).val.2 = none)
    (hurl : env.urlError config.SlackWebhookURL = none)
    (hdo : env.Do (slackRequest config.SlackWebhookURL
      (getExchangeRate env config.TransferwiseAPIKey).val.1) = .ok resp)
    (hstatus : resp.StatusCode ≠ StatusOK) :
    (HelloPubSub env m).val
        = some (.errorf ("bad status code from Slack webhook: " ++ resp.Status))
      ∧ requests (HelloPubSub env m).trace
        = [rateRequest config.TransferwiseAPIKey,
           slackRequest config.SlackWebhookURL
            (getExchangeRate env config.TransferwiseAPIKey).val.1] := by
  have hs : sendToSlack env config.SlackWebhookURL
      (getExchangeRate env config.TransferwiseAPIKey).val.1
      = ⟨some (.errorf ("bad status code from Slack webhook: " ++ resp.Status)),
          [.sendToSlack config.SlackWebhookURL
            (getExchangeRate env config.TransferwiseAPIKey).val.1,
           .Do (slackRequest config.SlackWebhookURL
            (getExchangeRate env config.TransferwiseAPIKey).val.1)]⟩ := by
    rw [sendToSlack_eq, hurl]
    simp only [hdo]
    simp [hstatus]
  constructor
  · simp [HelloPubSub, hconfig, hfetch, hs]
  · simp only [HelloPubSub, hconfig, hfetch, hs, getExchangeRate_trace]
    rfl

theorem HelloPubSub_webhook_bad_status_witness :
    (HelloPubSub (sampleEnv (ok200 sampleBody) (.ok ⟨204, "204 No Content", ⟨[], none⟩⟩)) ⟨[]⟩).val
        = some (.errorf "bad status code from Slack webhook: 204 No Content")
      ∧ requests (HelloPubSub (sampleEnv (ok200 sampleBody)
          (.ok ⟨204, "204 No Content", ⟨[], none⟩⟩)) ⟨[]⟩).trace
        = [rateRequest "secret",
           slackRequest "https://hooks.slack.com/services/T/B/X"
            (getExchangeRate (sampleEnv (ok200 sampleBody)
              (.ok ⟨204, "204 No Content", ⟨[], none⟩⟩)) "secret").val.1] :=
  HelloPubSub_webhook_bad_status
    (sampleEnv (ok200 sampleBody) (.ok ⟨204, "204 No Content", ⟨[], none⟩⟩)) ⟨[]⟩
    ⟨"secret", "https://hooks.slack.com/services/T/B/X"⟩ ⟨204, "204 No Content", ⟨[], none⟩⟩
    (by decide) (by decide) (by decide) (by decide) (by decide)

/-! ## Finiteness of parsed numbers -/

theorem log2Loop_spec : ∀ (fuel n : Nat), n ≤ fuel → 0 < n →
    2 ^ log2Loop fuel n ≤ n ∧ n < 2 ^ (log2Loop fuel n + 1) := by
  intro fuel
  induction fuel with
  | zero =>
    intro n h1 h2
    omega
  | succ fuel ih =>
    intro n h1 h2
    unfold log2Loop
    by_cases hn : n < 2
    · rw [if_pos hn]
      have : n = 1 := by omega
      subst this
      decide
    · rw [if_neg hn]
      have h3 := ih (n / 2) (by omega) (by omega)
      obtain ⟨h4, h5⟩ := h3
      rw [Nat.pow_succ, Nat.pow_succ, Nat.pow_succ] at *
      constructor <;> omega

theorem log2_spec (n : Nat) (h : 0 < n) : 2 ^ log2 n ≤ n ∧ n < 2 ^ (log2 n + 1) :=
  log2Loop_spec n n (Nat.le_refl n) h

theorem scalePow2_pos (num den : Nat) (e : Int) (hden : 0 < den) :
    0 < (scalePow2 num den e).2 := by
  unfold scalePow2
  split
  · exact Nat.mul_pos hden (Nat.pos_pow_of_pos _ (by decide))
  · exact hden

theorem scalePow2_ratio (num den : Nat) (e : Int) (hden : 0 < den) :
    ((scalePow2 num den e).1 : ℚ) / ((scalePow2 num den e).2 : ℚ)
      = (num : ℚ) / (den : ℚ) / (2 : ℚ) ^ e := by
  have hd : (den : ℚ) ≠ 0 := by
    have : (0 : ℚ) < (den : ℚ) := by exact_mod_cast hden
    exact ne_of_gt this
  unfold scalePow2
  split
  · rename_i h
    have he : e = ((e.toNat : Nat) : Int) := (Int.toNat_of_nonneg h).symm
    simp only []
    rw [he, zpow_natCast]
    push_cast
    rw [Int.toNat_natCast, div_div]
  · rename_i h
    have h2 : 0 ≤ -e := by omega
    have he : e = -(((-e).toNat : Nat) : Int) := by
      rw [Int.toNat_of_nonneg h2]
      omega
    simp only []
    conv_rhs => rw [he]
    rw [zpow_neg, zpow_natCast]
    push_cast
    field_simp

theorem natDiv_lt_of_ratio_lt (n d K : Nat) (hd : 0 < d) (h : (n : ℚ) / (d : ℚ) < (K : ℚ)) :
    n / d < K := by
  rw [Nat.div_lt_iff_lt_mul hd]
  have hd2 : (0 : ℚ) < (d : ℚ) := by exact_mod_cast hd
  rw [div_lt_iff₀ hd2] at h
  exact_mod_cast h

theorem ratio_lt_of_natDiv_lt (n d K : Nat) (hd : 0 < d) (h : n / d < K) :
    (n : ℚ) / (d : ℚ) < (K : ℚ) := by
  rw [Nat.div_lt_iff_lt_mul hd] at h
  have hd2 : (0 : ℚ) < (d : ℚ) := by exact_mod_cast hd
  rw [div_lt_iff₀ hd2]
  exact_mod_cast h

/-- Scaled by the rounding exponent, the ratio is below `2^53`. -/
theorem roundExponent_lt (num den : Nat) (hnum : 0 < num) (hden : 0 < den) :
    (scalePow2 num den (roundExponent num den)).1 / (scalePow2 num den (roundExponent num den)).2
      < 2 ^ 53 := by
  have hv0 : (0 : ℚ) < (num : ℚ) / (den : ℚ) := by
    have h1 : (0 : ℚ) < (num : ℚ) := by exact_mod_cast hnum
    have h2 : (0 : ℚ) < (den : ℚ) := by exact_mod_cast hden
    exact div_pos h1 h2
  have two_pos : ∀ z : Int, (0 : ℚ) < (2 : ℚ) ^ z := fun z => zpow_pos (by norm_num) z
  -- the bound from the two logarithms
  have hlog : (num : ℚ) / (den : ℚ)
      < (2 : ℚ) ^ ((log2 num : Int) - (log2 den : Int) + 1) := by
    obtain ⟨_, hn⟩ := log2_spec num hnum
    obtain ⟨hd, _⟩ := log2_spec den hden
    have hn2 : (num : ℚ) < (2 : ℚ) ^ (log2 num + 1) := by exact_mod_cast hn
    have hd2 : (2 : ℚ) ^ (log2 den) ≤ (den : ℚ) := by exact_mod_cast hd
    have hden2 : (0 : ℚ) < (den : ℚ) := by exact_mod_cast hden
    rw [div_lt_iff₀ hden2]
    have e1 : (2 : ℚ) ^ ((log2 num : Int) - (log2 den : Int) + 1)
        = (2 : ℚ) ^ (log2 num + 1) / (2 : ℚ) ^ (log2 den) := by
      rw [show (log2 num : Int) - (log2 den : Int) + 1
        = ((log2 num + 1 : Nat) : Int) - ((log2 den : Nat) : Int) by push_cast; ring]
      rw [zpow_sub₀ (by norm_num : (2 : ℚ) ≠ 0), zpow_natCast, zpow_natCast]
    rw [e1]
    have hp : (0 : ℚ) < (2 : ℚ) ^ (log2 den) := by positivity
    calc (num : ℚ) < (2 : ℚ) ^ (log2 num + 1) := hn2
      _ = (2 : ℚ) ^ (log2 num + 1) / (2 : ℚ) ^ (log2 den) * (2 : ℚ) ^ (log2 den) := by
          field_simp
      _ ≤ (2 : ℚ) ^ (log2 num + 1) / (2 : ℚ) ^ (log2 den) * (den : ℚ) := by
          apply mul_le_mul_of_nonneg_left hd2
          positivity
  -- the exponent before the clamp
  have hmain : ∀ e1 : Int,
      e1 = (if 2 ^ 52 ≤ (scalePow2 num den ((log2 num : Int) - (log2 den : Int) - 52)).1
              / (scalePow2 num den ((log2 num : Int) - (log2 den : Int) - 52)).2
            then (log2 num : Int) - (log2 den : Int) - 52
            else (log2 num : Int) - (log2 den : Int) - 52 - 1) →
      (num : ℚ) / (den : ℚ) < (2 : ℚ) ^ (53 + e1) := by
    intro e1 he1
    split at he1
    · rw [he1]
      have : 53 + ((log2 num : Int) - (log2 den : Int) - 52)
          = (log2 num : Int) - (log2 den : Int) + 1 := by ring
      rw [this]
      exact hlog
    · rename_i hc
      have hc2 : (scalePow2 num den ((log2 num : Int) - (log2 den : Int) - 52)).1
          / (scalePow2 num den ((log2 num : Int) - (log2 den : Int) - 52)).2 < 2 ^ 52 := by
        omega
      have hq := ratio_lt_of_natDiv_lt _ _ _ (scalePow2_pos num den _ hden) hc2
      rw [scalePow2_ratio num den _ hden, div_lt_iff₀ (two_pos _)] at hq
      rw [he1]
      have : 53 + ((log2 num : Int) - (log2 den : Int) - 52 - 1)
          = 52 + ((log2 num : Int) - (log2 den : Int) - 52) := by ring
      rw [this, zpow_add₀ (by norm_num : (2 : ℚ) ≠ 0)]
      have h52 : ((2 ^ 52 : Nat) : ℚ) = (2 : ℚ) ^ (52 : Int) := by norm_num
      rw [h52] at hq
      exact hq
  apply natDiv_lt_of_ratio_lt _ _ _ (scalePow2_pos num den _ hden)
  rw [scalePow2_ratio num den _ hden, div_lt_iff₀ (two_pos _)]
  have h53 : ((2 ^ 53 : Nat) : ℚ) = (2 : ℚ) ^ (53 : Int) := by norm_num
  rw [h53, ← zpow_add₀ (by norm_num : (2 : ℚ) ≠ 0)]
  unfold roundExponent
  simp only []
  have hle := hmain _ rfl
  refine lt_of_lt_of_le hle ?_
  apply zpow_le_zpow_right₀ (by norm_num)
  have := le_max_left (if 2 ^ 52 ≤ (scalePow2 num den ((log2 num : Int) - (log2 den : Int) - 52)).1
              / (scalePow2 num den ((log2 num : Int) - (log2 den : Int) - 52)).2
            then (log2 num : Int) - (log2 den : Int) - 52
            else (log2 num : Int) - (log2 den : Int) - 52 - 1) (-1074 : Int)
  omega

theorem roundHalfEven_le (num den : Nat) : roundHalfEven num den ≤ num / den + 1 := by
  unfold roundHalfEven
  simp only []
  split
  · omega
  · split
    · omega
    · split <;> omega

theorem packFloat64_isFinite (neg : Bool) (m : Nat) (e : Int) (x : Float64)
    (hm : m ≤ 2 ^ 53) (h : packFloat64 neg m e = some x) : x.isFinite = true := by
  unfold packFloat64 at h
  simp only [] at h
  by_cases hm53 : m = 2 ^ 53
  · rw [if_pos hm53, if_pos hm53] at h
    by_cases he : 971 < e + 1
    · rw [if_pos he] at h
      cases h
    · rw [if_neg he, if_neg (by decide)] at h
      have hx := (Option.some.inj h).symm
      subst hx
      simp only [Float64.isFinite, Float64.exp, decide_eq_true_eq]
      cases neg <;> simp only [if_true, if_false, Bool.false_eq_true] <;> omega
  · rw [if_neg hm53, if_neg hm53] at h
    by_cases he : 971 < e
    · rw [if_pos he] at h
      cases h
    · rw [if_neg he] at h
      by_cases hm52 : m < 2 ^ 52
      · rw [if_pos hm52] at h
        have hx := (Option.some.inj h).symm
        subst hx
        simp only [Float64.isFinite, Float64.exp, decide_eq_true_eq]
        cases neg <;> simp only [if_true, if_false, Bool.false_eq_true] <;> omega
      · rw [if_neg hm52] at h
        have hx := (Option.some.inj h).symm
        subst hx
        simp only [Float64.isFinite, Float64.exp, decide_eq_true_eq]
        cases neg <;> simp only [if_true, if_false, Bool.false_eq_true] <;> omega

theorem float64OfRatio_isFinite (neg : Bool) (num den : Nat) (x : Float64) (hden : 0 < den)
    (h : float64OfRatio neg num den = some x) : x.isFinite = true := by
  unfold float64OfRatio at h
  split at h
  · have hx := (Option.some.inj h).symm
    subst hx
    cases neg <;> decide
  · rename_i hnum
    simp only [] at h
    refine packFloat64_isFinite neg _ _ x ?_ h
    have h1 := roundHalfEven_le (scalePow2 num den (roundExponent num den)).1
      (scalePow2 num den (roundExponent num den)).2
    have h2 := roundExponent_lt num den (by omega) hden
    omega

theorem ParseFloat_isFinite (item : List Byte) (x : Float64) (h : ParseFloat item = some x) :
    x.isFinite = true := by
  unfold ParseFloat at h
  simp only [] at h
  generalize (if (readFloat item).eneg = true then -((readFloat item).e : Int)
    else ((readFloat item).e : Int)) - ((readFloat item).nfrac : Int) = e10 at h
  by_cases hc : 0 ≤ e10
  · rw [if_pos hc] at h
    exact float64OfRatio_isFinite _ _ 1 x (by decide) h
  · rw [if_neg hc] at h
    exact float64OfRatio_isFinite _ _ _ x (Nat.pos_pow_of_pos _ (by decide)) h

/-! ## Every decoded rate is finite -/

theorem zero_isFinite : (⟨0⟩ : Float64).isFinite = true := by decide

theorem storeFloat_isFinite (cur : Float64) (saved : Option JSONError) (v : JSON)
    (h : cur.isFinite = true) : (storeFloat cur saved v).1.isFinite = true := by
  unfold storeFloat
  split
  · exact h
  · split
    · rename_i x hx
      exact ParseFloat_isFinite _ x hx
    · exact h
  · exact h

theorem storeMember_isFinite (acc : exchangeRate × Option JSONError) (m : List Byte × JSON)
    (h : acc.1.Rate.isFinite = true) : (storeMember acc m).1.Rate.isFinite = true := by
  unfold storeMember
  split
  · exact h
  · exact storeFloat_isFinite _ _ _ h
  · exact h
  · exact h

theorem foldl_storeMember_isFinite (members : List (List Byte × JSON)) :
    ∀ acc : exchangeRate × Option JSONError, acc.1.Rate.isFinite = true →
      (members.foldl storeMember acc).1.Rate.isFinite = true := by
  induction members with
  | nil =>
    intro acc h
    exact h
  | cons m ms ih =>
    intro acc h
    exact ih _ (storeMember_isFinite acc m h)

theorem decodeElement_isFinite (saved : Option JSONError) (v : JSON) :
    (decodeElement saved v).1.Rate.isFinite = true := by
  unfold decodeElement
  split
  · exact foldl_storeMember_isFinite _ _ zero_isFinite
  · exact zero_isFinite
  · exact zero_isFinite

theorem decodeElements_isFinite (vs : List JSON) :
    ∀ saved : Option JSONError, ∀ r ∈ (decodeElements vs saved).1, r.Rate.isFinite = true := by
  induction vs with
  | nil =>
    intro saved r hr
    cases hr
  | cons v vs ih =>
    intro saved r hr
    unfold decodeElements at hr
    simp only [List.mem_cons] at hr
    rcases hr with hr | hr
    · rw [hr]
      exact decodeElement_isFinite saved v
    · exact ih _ r hr

theorem unmarshalRates_isFinite (v : JSON) (rates : List exchangeRate)
    (h : unmarshalRates v = .ok rates) : ∀ r ∈ rates, r.Rate.isFinite = true := by
  unfold unmarshalRates at h
  split at h
  · rename_i elems
    have hfin := decodeElements_isFinite elems none
    split at h
    · rename_i rs heq
      cases h
      rw [heq] at hfin
      exact hfin
    · cases h
  · cases h
    intro r hr
    cases hr
  · cases h

theorem Decode_isFinite (body : Reader) (rates : List exchangeRate)
    (h : Decode body = .ok rates) : ∀ r ∈ rates, r.Rate.isFinite = true := by
  unfold Decode at h
  split at h
  · cases h
  · split at h
    · exact unmarshalRates_isFinite _ rates h
    · cases h

/-- Every rate `getExchangeRate` returns is finite: it is 0, or a number that
`strconv.ParseFloat` accepted. -/
theorem getExchangeRate_isFinite (env : Env) (apiKey : String) :
    (getExchangeRate env apiKey).val.1.isFinite = true := by
  rw [getExchangeRate_eq]
  cases env.Do (rateRequest apiKey) with
  | error msg => exact zero_isFinite
  | ok resp =>
    simp only []
    split
    · exact zero_isFinite
    · cases hdec : Decode resp.Body with
      | error err => exact zero_isFinite
      | ok rates =>
        simp only []
        split
        · exact zero_isFinite
        · have hfin := Decode_isFinite resp.Body rates hdec
          cases rates with
          | nil => exact zero_isFinite
          | cons r rs => exact hfin r (List.mem_cons_self r rs)

/-- Every rate `HelloPubSub` hands to `sendToSlack` is finite. -/
theorem HelloPubSub_slackCalls_isFinite (env : Env) (m : PubSubMessage) :
    ∀ call ∈ slackCalls (HelloPubSub env m).trace, call.2.isFinite = true := by
  intro call hcall
  unfold HelloPubSub at hcall
  cases hconfig : envconfig.Process env with
  | error err =>
    rw [hconfig] at hcall
    cases hcall
  | ok config =>
    rw [hconfig] at hcall
    simp only [] at hcall
    have hfin := getExchangeRate_isFinite env config.TransferwiseAPIKey
    have ht := getExchangeRate_trace env config.TransferwiseAPIKey
    cases hfetch : (getExchangeRate env config.TransferwiseAPIKey).val.2 with
    | some err =>
      rw [hfetch] at hcall
      simp only [ht] at hcall
      cases hcall
    | none =>
      rw [hfetch] at hcall
      have hs : slackCalls (sendToSlack env config.SlackWebhookURL
          (getExchangeRate env config.TransferwiseAPIKey).val.1).trace
          = [(config.SlackWebhookURL, (getExchangeRate env config.TransferwiseAPIKey).val.1)] := by
        rw [sendToSlack_eq]
        cases env.urlError config.SlackWebhookURL with
        | some msg => rfl
        | none =>
          simp only []
          cases env.Do (slackRequest config.SlackWebhookURL
            (getExchangeRate env config.TransferwiseAPIKey).val.1) with
          | error msg => rfl
          | ok resp =>
            simp only []
            split <;> rfl
      have hall : slackCalls ((getExchangeRate env config.TransferwiseAPIKey).trace ++
          (sendToSlack env config.SlackWebhookURL
            (getExchangeRate env config.TransferwiseAPIKey).val.1).trace)
          = [(config.SlackWebhookURL, (getExchangeRate env config.TransferwiseAPIKey).val.1)] := by
        unfold slackCalls at hs ⊢
        rw [List.filterMap_append, hs, ht]
        rfl
      have hc : call = (config.SlackWebhookURL,
          (getExchangeRate env config.TransferwiseAPIKey).val.1) := by
        cases hsend : (sendToSlack env config.SlackWebhookURL
            (getExchangeRate env config.TransferwiseAPIKey).val.1).val with
        | some err =>
          rw [hsend] at hcall
          simp only [hall] at hcall
          simpa using hcall
        | none =>
          rw [hsend] at hcall
          simp only [hall] at hcall
          simpa using hcall
      rw [hc]
      exact hfin

/-! ## The message text -/

/-- The integer `roundHalfEven num den` is within one half of `num / den`. -/
theorem roundHalfEven_spec (num den : Nat) (hden : 0 < den) :
    2 * (den * roundHalfEven num den) ≤ 2 * num + den
      ∧ 2 * num ≤ 2 * (den * roundHalfEven num den) + den := by
  have hdm : den * (num / den) + num % den = num := Nat.div_add_mod num den
  have hlt : num % den < den := Nat.mod_lt num hden
  unfold roundHalfEven
  simp only []
  split
  · constructor <;> omega
  · split
    · rw [Nat.mul_add, Nat.mul_one]
      constructor <;> omega
    · split
      · constructor <;> omega
      · rw [Nat.mul_add, Nat.mul_one]
        constructor <;> omega

/-- The same bound over the rationals. -/
theorem roundHalfEven_near (num den : Nat) (hden : 0 < den) :
    |(roundHalfEven num den : ℚ) - (num : ℚ) / (den : ℚ)| ≤ 1 / 2 := by
  obtain ⟨h1, h2⟩ := roundHalfEven_spec num den hden
  have hd : (0 : ℚ) < (den : ℚ) := by exact_mod_cast hden
  have q1 : (2 : ℚ) * ((den : ℚ) * (roundHalfEven num den : ℚ)) ≤ 2 * (num : ℚ) + (den : ℚ) := by
    exact_mod_cast h1
  have q2 : (2 : ℚ) * (num : ℚ) ≤ 2 * ((den : ℚ) * (roundHalfEven num den : ℚ)) + (den : ℚ) := by
    exact_mod_cast h2
  have hx : (den : ℚ) * ((num : ℚ) / (den : ℚ)) = (num : ℚ) := by
    field_simp
  rw [abs_le]
  constructor
  · have h3 : (den : ℚ) * (2 * ((num : ℚ) / (den : ℚ)) - 1)
        ≤ (den : ℚ) * (2 * (roundHalfEven num den : ℚ)) := by
      have : (den : ℚ) * (2 * ((num : ℚ) / (den : ℚ)) - 1) = 2 * (num : ℚ) - (den : ℚ) := by
        rw [mul_sub, mul_one, mul_left_comm, hx]
      rw [this]
      linarith
    have h4 := le_of_mul_le_mul_left h3 hd
    linarith
  · have h3 : (den : ℚ) * (2 * (roundHalfEven num den : ℚ))
        ≤ (den : ℚ) * (2 * ((num : ℚ) / (den : ℚ)) + 1) := by
      have : (den : ℚ) * (2 * ((num : ℚ) / (den : ℚ)) + 1) = 2 * (num : ℚ) + (den : ℚ) := by
        rw [mul_add, mul_one, mul_left_comm, hx]
      rw [this]
      linarith
    have h4 := le_of_mul_le_mul_left h3 hd
    linarith

/-- The rounded multiple of `10^-5` is within half of `10^-5` of the value
`sig * 2^e / den`. -/
theorem scaled_near (sig e den : Nat) (hden : 0 < den) :
    |(roundHalfEven (sig * 2 ^ e * 10 ^ 5) den : ℚ) / 10 ^ 5 - (sig : ℚ) * 2 ^ e / (den : ℚ)|
      ≤ 1 / (2 * 10 ^ 5) := by
  have hnear := roundHalfEven_near (sig * 2 ^ e * 10 ^ 5) den hden
  have hd : (den : ℚ) ≠ 0 := by
    have : (0 : ℚ) < (den : ℚ) := by exact_mod_cast hden
    exact ne_of_gt this
  have hmag : ((sig * 2 ^ e * 10 ^ 5 : Nat) : ℚ) / (den : ℚ)
      = (sig : ℚ) * 2 ^ e / (den : ℚ) * 10 ^ 5 := by
    push_cast
    ring
  rw [hmag] at hnear
  have h5 : (0 : ℚ) < 10 ^ 5 := by positivity
  have key : (roundHalfEven (sig * 2 ^ e * 10 ^ 5) den : ℚ) / 10 ^ 5 - (sig : ℚ) * 2 ^ e / (den : ℚ)
      = ((roundHalfEven (sig * 2 ^ e * 10 ^ 5) den : ℚ)
        - (sig : ℚ) * 2 ^ e / (den : ℚ) * 10 ^ 5) / 10 ^ 5 := by
    field_simp
    ring
  rw [key, abs_div, abs_of_pos h5, div_le_iff₀ h5]
  calc |(roundHalfEven (sig * 2 ^ e * 10 ^ 5) den : ℚ) - (sig : ℚ) * 2 ^ e / (den : ℚ) * 10 ^ 5|
        ≤ 1 / 2 := hnear
    _ = 1 / (2 * 10 ^ 5) * 10 ^ 5 := by norm_num

/-- A digit below ten prints as a decimal digit. -/
theorem isDigit_digitChar (n : Nat) (h : n < 10) : isDigit (Nat.digitChar n).toNat = true := by
  interval_cases n <;> decide

/-- On a tie the integer `roundHalfEven num den` is the even neighbour. -/
theorem roundHalfEven_tie (num den : Nat) (hden : 0 < den)
    (htie : 2 * (den * roundHalfEven num den) = 2 * num + den
      ∨ 2 * num = 2 * (den * roundHalfEven num den) + den) :
    roundHalfEven num den % 2 = 0 := by
  have hdm : den * (num / den) + num % den = num := Nat.div_add_mod num den
  have hlt : num % den < den := Nat.mod_lt num hden
  revert htie
  unfold roundHalfEven
  simp only []
  split
  · intro htie
    omega
  · split
    · rw [Nat.mul_add, Nat.mul_one]
      intro htie
      omega
    · split
      · intro _
        assumption
      · intro _
        omega

/-- The same over the rationals: at distance exactly one half the rounded integer
is even. -/
theorem roundHalfEven_tie_rat (num den : Nat) (hden : 0 < den)
    (htie : |(roundHalfEven num den : ℚ) - (num : ℚ) / (den : ℚ)| = 1 / 2) :
    roundHalfEven num den % 2 = 0 := by
  have hd : (0 : ℚ) < (den : ℚ) := by exact_mod_cast hden
  have hx : (den : ℚ) * ((num : ℚ) / (den : ℚ)) = (num : ℚ) := by
    field_simp
  apply roundHalfEven_tie num den hden
  rcases abs_eq (by norm_num : (0 : ℚ) ≤ 1 / 2) |>.mp htie with h | h
  · left
    have h2 : (2 : ℚ) * ((den : ℚ) * (roundHalfEven num den : ℚ)) = 2 * (num : ℚ) + (den : ℚ) := by
      have : (roundHalfEven num den : ℚ) = (num : ℚ) / (den : ℚ) + 1 / 2 := by linarith
      rw [this, mul_add, hx]
      ring
    exact_mod_cast h2
  · right
    have h2 : (2 : ℚ) * (num : ℚ) = 2 * ((den : ℚ) * (roundHalfEven num den : ℚ)) + (den : ℚ) := by
      have : (roundHalfEven num den : ℚ) = (num : ℚ) / (den : ℚ) - 1 / 2 := by linarith
      rw [this, mul_sub, hx]
      ring
    exact_mod_cast h2

/-- At distance exactly half of `10^-5` from `sig * 2^e / den`, the rounded multiple
of `10^-5` is an even one. -/
theorem scaled_tie (sig e den : Nat) (hden : 0 < den)
    (htie : |(roundHalfEven (sig * 2 ^ e * 10 ^ 5) den : ℚ) / 10 ^ 5
      - (sig : ℚ) * 2 ^ e / (den : ℚ)| = 1 / (2 * 10 ^ 5)) :
    roundHalfEven (sig * 2 ^ e * 10 ^ 5) den % 2 = 0 := by
  apply roundHalfEven_tie_rat _ den hden
  have hd : (den : ℚ) ≠ 0 := by
    have : (0 : ℚ) < (den : ℚ) := by exact_mod_cast hden
    exact ne_of_gt this
  have hmag : ((sig * 2 ^ e * 10 ^ 5 : Nat) : ℚ) / (den : ℚ)
      = (sig : ℚ) * 2 ^ e / (den : ℚ) * 10 ^ 5 := by
    push_cast
    ring
  rw [hmag]
  have h5 : (0 : ℚ) < 10 ^ 5 := by positivity
  have key : (roundHalfEven (sig * 2 ^ e * 10 ^ 5) den : ℚ) / 10 ^ 5 - (sig : ℚ) * 2 ^ e / (den : ℚ)
      = ((roundHalfEven (sig * 2 ^ e * 10 ^ 5) den : ℚ)
        - (sig : ℚ) * 2 ^ e / (den : ℚ) * 10 ^ 5) / 10 ^ 5 := by
    field_simp
    ring
  rw [key, abs_div, abs_of_pos h5, div_eq_iff (ne_of_gt h5)] at htie
  rw [htie]
  norm_num

/-- The decimal digits of a number below `10^5`, most significant first, give the
number back. -/
theorem five_digits_value (r : Nat) (h : r < 10 ^ 5) :
    r = (r / 10000 % 10) * 10000 + (r / 1000 % 10) * 1000 + (r / 100 % 10) * 100
      + (r / 10 % 10) * 10 + r % 10 := by
  omega

set_option exponentiation.threshold 2000 in
set_option maxRecDepth 100000 in
/-- The text `%.5f` gives for a finite value: sign, integer part, point and the five
decimal digits of the value scaled by `10^5` and rounded to the nearest integer, ties
to the even one. -/
theorem formatFloat5_finite (rate : Float64) (hfinite : rate.isFinite = true) :
    (newSlackMessage rate).Text = "The exchange rate is "
        ++ ((if rate.neg then "-" else "") ++ Nat.repr (rate.scaled5 / 10 ^ 5) ++ "."
          ++ String.mk [Nat.digitChar (rate.scaled5 % 10 ^ 5 / 10000 % 10),
              Nat.digitChar (rate.scaled5 % 10 ^ 5 / 1000 % 10),
              Nat.digitChar (rate.scaled5 % 10 ^ 5 / 100 % 10),
              Nat.digitChar (rate.scaled5 % 10 ^ 5 / 10 % 10),
              Nat.digitChar (rate.scaled5 % 10 ^ 5 % 10)])
      ∧ endsWithFiveDecimals (newSlackMessage rate).Text = true
      ∧ |(rate.scaled5 : ℚ) / 10 ^ 5 - rate.magnitude| ≤ 1 / (2 * 10 ^ 5)
      ∧ (|(rate.scaled5 : ℚ) / 10 ^ 5 - rate.magnitude| = 1 / (2 * 10 ^ 5)
          → rate.scaled5 % 2 = 0) := by
  have hexp : rate.exp ≠ 2047 := by
    simpa [Float64.isFinite] using hfinite
  have htext : (newSlackMessage rate).Text = "The exchange rate is "
        ++ ((if rate.neg then "-" else "") ++ Nat.repr (rate.scaled5 / 10 ^ 5) ++ "."
          ++ String.mk [Nat.digitChar (rate.scaled5 % 10 ^ 5 / 10000 % 10),
              Nat.digitChar (rate.scaled5 % 10 ^ 5 / 1000 % 10),
              Nat.digitChar (rate.scaled5 % 10 ^ 5 / 100 % 10),
              Nat.digitChar (rate.scaled5 % 10 ^ 5 / 10 % 10),
              Nat.digitChar (rate.scaled5 % 10 ^ 5 % 10)]) := by
    simp only [newSlackMessage, formatFloat5, if_neg hexp, fiveDigits]
  have hcast : ((2 ^ 1075 : Nat) : ℚ) = (2 : ℚ) ^ 1075 := by
    simp only [Nat.cast_pow, Nat.cast_ofNat]
  refine ⟨htext, ?_, ?_, ?_⟩
  · rw [htext]
    unfold endsWithFiveDecimals
    simp only [String.data_append, List.reverse_append, List.reverse_cons, List.reverse_nil,
      List.nil_append, List.cons_append, List.append_assoc]
    simp only [isDigit_digitChar _ (Nat.mod_lt _ (by decide : 0 < 10)), Bool.and_true]
    decide
  · have h := scaled_near rate.significand rate.binExp (2 ^ 1075) (by positivity)
    rw [hcast] at h
    exact h
  · intro htie
    have h := scaled_tie rate.significand rate.binExp (2 ^ 1075) (by positivity)
    rw [hcast] at h
    exact h htie

set_option exponentiation.threshold 2000 in
set_option maxRecDepth 100000 in
/-- C6: for every rate `HelloPubSub` hands to `sendToSlack` (each is finite), the text
of the message is `The exchange rate is ` followed by the sign, the integer part, a
point and exactly five decimal digits; the digits are those of the rate scaled by
`10^5` and rounded to the nearest integer, ties to the even one, so the number shown
is within half of `10^-5` of the rate; and for the binary64 that `1.41523` parses to,
the text is exactly `The exchange rate is 1.41523`. -/
theorem sendToSlack_text (env : Env) (m : PubSubMessage) (slackURL : String) (rate : Float64)
    (hcall : (slackURL, rate) ∈ slackCalls (HelloPubSub env m).trace) :
    rate.isFinite = true
      ∧ (newSlackMessage rate).Text = "The exchange rate is "
        ++ ((if rate.neg then "-" else "") ++ Nat.repr (rate.scaled5 / 10 ^ 5) ++ "."
          ++ String.mk [Nat.digitChar (rate.scaled5 % 10 ^ 5 / 10000 % 10),
              Nat.digitChar (rate.scaled5 % 10 ^ 5 / 1000 % 10),
              Nat.digitChar (rate.scaled5 % 10 ^ 5 / 100 % 10),
              Nat.digitChar (rate.scaled5 % 10 ^ 5 / 10 % 10),
              Nat.digitChar (rate.scaled5 % 10 ^ 5 % 10)])
      ∧ rate.scaled5 % 10 ^ 5 = (rate.scaled5 % 10 ^ 5 / 10000 % 10) * 10000
          + (rate.scaled5 % 10 ^ 5 / 1000 % 10) * 1000 + (rate.scaled5 % 10 ^ 5 / 100 % 10) * 100
          + (rate.scaled5 % 10 ^ 5 / 10 % 10) * 10 + rate.scaled5 % 10 ^ 5 % 10
      ∧ endsWithFiveDecimals (newSlackMessage rate).Text = true
      ∧ |(rate.scaled5 : ℚ) / 10 ^ 5 - rate.magnitude| ≤ 1 / (2 * 10 ^ 5)
      ∧ (|(rate.scaled5 : ℚ) / 10 ^ 5 - rate.magnitude| = 1 / (2 * 10 ^ 5)
          → rate.scaled5 % 2 = 0)
      ∧ (ParseFloat (asciiBytes "1.41523") = some rate →
          (newSlackMessage rate).Text = "The exchange rate is 1.41523")
      ∧ ∀ req ∈ requests (sendToSlack env slackURL rate).trace,
          req.Body.bind (fun obj => obj.lookup "text")
            = some (.string (newSlackMessage rate).Text) := by
  have hfinite : rate.isFinite = true :=
    HelloPubSub_slackCalls_isFinite env m (slackURL, rate) hcall
  obtain ⟨h1, h2, h3, h4⟩ := formatFloat5_finite rate hfinite
  refine ⟨hfinite, h1, five_digits_value _ (Nat.mod_lt _ (by decide)), h2, h3, h4, ?_, ?_⟩
  · intro hparse
    have hs : ParseFloat (asciiBytes "1.41523") = some sampleRate := by decide
    rw [hs] at hparse
    have hrate : rate = sampleRate := (Option.some.inj hparse).symm
    rw [hrate]
    decide
  · intro req hreq
    have hsub : requests (sendToSlack env slackURL rate).trace = []
        ∨ requests (sendToSlack env slackURL rate).trace = [slackRequest slackURL rate] := by
      rw [sendToSlack_eq]
      cases env.urlError slackURL with
      | some msg => left; rfl
      | none =>
        right
        simp only []
        cases env.Do (slackRequest slackURL rate) with
        | error msg => rfl
        | ok resp =>
          simp only []
          split <;> rfl
    rcases hsub with h | h
    · rw [h] at hreq
      cases hreq
    · rw [h] at hreq
      have : req = slackRequest slackURL rate := by simpa using hreq
      subst this
      have hbody : (slackRequest slackURL rate).Body = some
          [("text", .string ("The exchange rate is " ++ formatFloat5 rate)),
           ("username", .string "TransferwiseBot"),
           ("icon_emoji", .string ":moneybag:"),
           ("channel", .string "transferwise")] := by
        simp [slackRequest, Request.HeaderSet, Marshal_newSlackMessage, Except.toOption]
      rw [hbody]
      simp [List.lookup, newSlackMessage]

set_option exponentiation.threshold 2000 in
set_option maxRecDepth 100000 in
theorem sendToSlack_text_witness :
    (newSlackMessage sampleRate).Text = "The exchange rate is 1.41523"
      ∧ endsWithFiveDecimals (newSlackMessage sampleRate).Text = true
      ∧ (newSlackMessage tieRate).Text = "The exchange rate is 0.01562" :=
  have h := sendToSlack_text (sampleEnv (ok200 sampleBody) (ok200 [])) ⟨[]⟩
    "https://hooks.slack.com/services/T/B/X" sampleRate (by decide)
  have h2 := sendToSlack_text (sampleEnv (ok200 tieBody) (ok200 [])) ⟨[]⟩
    "https://hooks.slack.com/services/T/B/X" tieRate (by decide)
  ⟨h.2.2.2.2.2.2.1 (by decide), h.2.2.2.1, h2.2.1.trans (by decide)⟩

/-! ## The scanner reads one value -/

theorem error_innerPost (s : scanner) (c : Byte) (context : String) :
    innerPost (s.error c context) := by
  simp [scanner.error, innerPost]

theorem popParseState_closes (s : scanner) : closes s.popParseState := by
  unfold scanner.popParseState
  simp only []
  split
  · rename_i hz
    left
    have : s.parseState.tail = [] := List.length_eq_zero.mp hz
    simp [this, stateEndValue, stateEndTop, isSpace]
  · rename_i hz
    right
    have hne : s.parseState.tail ≠ [] := fun h2 => hz (by rw [h2]; rfl)
    refine ⟨⟨hne, by simp⟩, ?_⟩
    cases ht : s.parseState.tail with
    | nil => exact absurd ht hne
    | cons p rest => simp [stateEndValue, ht, isSpace]

theorem stateEndValue_innerPost (s : scanner) (c : Byte) (h : s.inner) :
    innerPost (stateEndValue s c) := by
  obtain ⟨h1, h2⟩ := h
  unfold stateEndValue
  cases hps : s.parseState with
  | nil => exact absurd hps h1
  | cons ps rest =>
    simp only []
    by_cases hsp : isSpace c = true
    · simp [hsp, innerPost, scanner.inner, hps]
    · simp only [hsp, Bool.false_eq_true, if_false]
      cases ps with
      | parseObjectKey =>
        simp only []
        split
        · simp [innerPost, scanner.inner]
        · exact error_innerPost _ _ _
      | parseObjectValue =>
        simp only []
        split
        · simp [innerPost, scanner.inner]
        · split
          · exact popParseState_closes s
          · exact error_innerPost _ _ _
      | parseArrayValue =>
        simp only []
        split
        · simp [innerPost, scanner.inner, hps]
        · split
          · exact popParseState_closes s
          · exact error_innerPost _ _ _

theorem pushParseState_innerPost (s : scanner) (c : Byte) (ps : ParseState) (op : Opcode)
    (hs : s.step ≠ .stateEndTop)
    (hop : op = .scanBeginObject ∨ op = .scanBeginArray) :
    innerPost (s.pushParseState c ps op) := by
  unfold scanner.pushParseState
  simp only []
  split
  · rcases hop with hop | hop <;> subst hop <;> simp [innerPost, scanner.inner, hs]
  · exact error_innerPost _ _ _

theorem stateBeginValue_innerPost (s : scanner) (c : Byte) (h : s.inner) :
    innerPost (stateBeginValue s c) := by
  obtain ⟨h1, h2⟩ := h
  unfold stateBeginValue
  split
  · exact ⟨h1, h2⟩
  split
  · exact pushParseState_innerPost _ c _ _ (by simp) (Or.inl rfl)
  split
  · exact pushParseState_innerPost _ c _ _ (by simp) (Or.inr rfl)
  iterate 7
    split
    · simp [innerPost, scanner.inner, h1]
  exact error_innerPost _ _ _

theorem stateBeginValueOrEmpty_innerPost (s : scanner) (c : Byte) (h : s.inner) :
    innerPost (stateBeginValueOrEmpty s c) := by
  unfold stateBeginValueOrEmpty
  split
  · exact h
  split
  · exact stateEndValue_innerPost s c h
  · exact stateBeginValue_innerPost s c h

theorem stateBeginString_innerPost (s : scanner) (c : Byte) (h : s.inner) :
    innerPost (stateBeginString s c) := by
  unfold stateBeginString
  split
  · exact h
  split
  · simp [innerPost, scanner.inner, h.1]
  · exact error_innerPost _ _ _

theorem stateBeginStringOrEmpty_innerPost (s : scanner) (c : Byte) (h : s.inner) :
    innerPost (stateBeginStringOrEmpty s c) := by
  unfold stateBeginStringOrEmpty
  split
  · exact h
  split
  · exact stateEndValue_innerPost _ c ⟨by simp, h.2⟩
  · exact stateBeginString_innerPost s c h

theorem stateInString_innerPost (s : scanner) (c : Byte) (h : s.inner) :
    innerPost (stateInString s c) := by
  unfold stateInString
  split
  · simp [innerPost, scanner.inner, h.1]
  split
  · simp [innerPost, scanner.inner, h.1]
  split
  · exact error_innerPost _ _ _
  · exact h

theorem stateInStringEsc_innerPost (s : scanner) (c : Byte) (h : s.inner) :
    innerPost (stateInStringEsc s c) := by
  unfold stateInStringEsc
  split
  · simp [innerPost, scanner.inner, h.1]
  split
  · simp [innerPost, scanner.inner, h.1]
  · exact error_innerPost _ _ _

theorem stateInStringEscHex_innerPost (next : Step) (s : scanner) (c : Byte) (h : s.inner)
    (hn : next ≠ .stateEndTop) : innerPost (stateInStringEscHex next s c) := by
  unfold stateInStringEscHex
  split
  · simp [innerPost, scanner.inner, h.1, hn]
  · exact error_innerPost _ _ _

theorem stateLiteral_innerPost (want : Byte) (next : Step) (context : String) (s : scanner)
    (c : Byte) (h : s.inner) (hn : next ≠ .stateEndTop) :
    innerPost (stateLiteral want next context s c) := by
  unfold stateLiteral
  split
  · simp [innerPost, scanner.inner, h.1, hn]
  · exact error_innerPost _ _ _

theorem stateNeg_innerPost (s : scanner) (c : Byte) (h : s.inner) :
    innerPost (stateNeg s c) := by
  unfold stateNeg
  split
  · simp [innerPost, scanner.inner, h.1]
  split
  · simp [innerPost, scanner.inner, h.1]
  · exact error_innerPost _ _ _

theorem state0_innerPost (s : scanner) (c : Byte) (h : s.inner) :
    innerPost (state0 s c) := by
  unfold state0
  split
  · simp [innerPost, scanner.inner, h.1]
  split
  · simp [innerPost, scanner.inner, h.1]
  · exact stateEndValue_innerPost s c h

theorem state1_innerPost (s : scanner) (c : Byte) (h : s.inner) :
    innerPost (state1 s c) := by
  unfold state1
  split
  · simp [innerPost, scanner.inner, h.1]
  · exact state0_innerPost s c h

theorem stateDot_innerPost (s : scanner) (c : Byte) (h : s.inner) :
    innerPost (stateDot s c) := by
  unfold stateDot
  split
  · simp [innerPost, scanner.inner, h.1]
  · exact error_innerPost _ _ _

theorem stateDot0_innerPost (s : scanner) (c : Byte) (h : s.inner) :
    innerPost (stateDot0 s c) := by
  unfold stateDot0
  split
  · exact h
  split
  · simp [innerPost, scanner.inner, h.1]
  · exact stateEndValue_innerPost s c h

theorem stateESign_innerPost (s : scanner) (c : Byte) (h : s.inner) :
    innerPost (stateESign s c) := by
  unfold stateESign
  split
  · simp [innerPost, scanner.inner, h.1]
  · exact error_innerPost _ _ _

theorem stateE_innerPost (s : scanner) (c : Byte) (h : s.inner) :
    innerPost (stateE s c) := by
  unfold stateE
  split
  · simp [innerPost, scanner.inner, h.1]
  · exact stateESign_innerPost s c h

theorem stateE0_innerPost (s : scanner) (c : Byte) (h : s.inner) :
    innerPost (stateE0 s c) := by
  unfold stateE0
  split
  · exact h
  · exact stateEndValue_innerPost s c h

/-- Inside a container a step never ends the top-level value, except by closing the
outermost bracket. -/
theorem doStep_innerPost (s : scanner) (c : Byte) (h : s.inner) : innerPost (s.doStep c) := by
  unfold scanner.doStep
  split
  · exact stateBeginValueOrEmpty_innerPost s c h
  · exact stateBeginValue_innerPost s c h
  · exact stateBeginStringOrEmpty_innerPost s c h
  · exact stateBeginString_innerPost s c h
  · exact stateEndValue_innerPost s c h
  · rename_i hs
    exact absurd hs h.2
  · exact stateInString_innerPost s c h
  · exact stateInStringEsc_innerPost s c h
  · exact stateInStringEscHex_innerPost _ s c h (by simp)
  · exact stateInStringEscHex_innerPost _ s c h (by simp)
  · exact stateInStringEscHex_innerPost _ s c h (by simp)
  · exact stateInStringEscHex_innerPost _ s c h (by simp)
  · exact stateNeg_innerPost s c h
  · exact state1_innerPost s c h
  · exact state0_innerPost s c h
  · exact stateDot_innerPost s c h
  · exact stateDot0_innerPost s c h
  · exact stateE_innerPost s c h
  · exact stateESign_innerPost s c h
  · exact stateE0_innerPost s c h
  iterate 10
    · exact stateLiteral_innerPost _ _ _ s c h (by simp)
  · simp [innerPost]

/-- Inside a container, the value `readValueLoop` finds does not depend on what
follows it in the stream. -/
theorem readValueLoop_inner_append (r r2 : Reader) (suffix : List Byte) :
    ∀ (data : List Byte) (s : scanner) (k n : Nat), s.inner →
      readValueLoop r s k data = .ok n → readValueLoop r2 s k (data ++ suffix) = .ok n := by
  intro data
  induction data with
  | nil =>
    intro s k n h hread
    exfalso
    unfold readValueLoop at hread
    cases herr : r.err with
    | some e =>
      rw [herr] at hread
      cases hread
    | none =>
      rw [herr] at hread
      simp only [] at hread
      have hp := doStep_innerPost s 32 h
      cases hstep : s.doStep 32 with
      | mk op s2 =>
        rw [hstep] at hp hread
        cases op <;> simp [innerPost] at hp hread
        all_goals
          split at hread <;> cases hread
  | cons c rest ih =>
    intro s k n h hread
    rw [List.cons_append]
    unfold readValueLoop at hread ⊢
    have hp := doStep_innerPost s c h
    cases hstep : s.doStep c with
    | mk op s2 =>
      rw [hstep] at hp hread
      cases op
      case scanEnd => exact absurd hp (by simp [innerPost])
      case scanError => simp at hread
      case scanEndObject =>
        simp only [innerPost] at hp
        simp only [] at hread ⊢
        rcases hp with ⟨_, hend⟩ | ⟨hin, hsame⟩
        · rw [if_pos hend] at hread ⊢
          exact hread
        · have hne : ¬ (stateEndValue s2 32).1 = Opcode.scanEnd := by
            rw [hsame]
            simp
          rw [if_neg hne] at hread ⊢
          rw [hsame] at hread ⊢
          exact ih s2 (k + 1) n hin hread
      case scanEndArray =>
        simp only [innerPost] at hp
        simp only [] at hread ⊢
        rcases hp with ⟨_, hend⟩ | ⟨hin, hsame⟩
        · rw [if_pos hend] at hread ⊢
          exact hread
        · have hne : ¬ (stateEndValue s2 32).1 = Opcode.scanEnd := by
            rw [hsame]
            simp
          rw [if_neg hne] at hread ⊢
          rw [hsame] at hread ⊢
          exact ih s2 (k + 1) n hin hread
      all_goals
        simp only [innerPost] at hp
        simp only [] at hread ⊢
        exact ih s2 (k + 1) n hp hread

theorem error_literalPost (num : Bool) (s : scanner) (c : Byte) (context : String) :
    literalPost num (s.error c context) := by
  simp [scanner.error, literalPost]

theorem stateEndValue_top (s : scanner) (c : Byte) (h : s.parseState = []) :
    (stateEndValue s c).1 = .scanEnd := by
  unfold stateEndValue
  rw [h]
  simp only [stateEndTop]
  split <;> rfl

theorem stateEndValue_literalPost (num : Bool) (s : scanner) (c : Byte)
    (h : s.parseState = []) : literalPost num (stateEndValue s c) := by
  have h1 := stateEndValue_top s c h
  cases hr : stateEndValue s c with
  | mk op s2 =>
    rw [hr] at h1
    simp only at h1
    subst h1
    simp [literalPost]

theorem stateInString_literalPost (s : scanner) (c : Byte) (h : s.parseState = [])
    (hs : s.step.isQuoted = true) : literalPost false (stateInString s c) := by
  unfold stateInString
  split
  · simp [literalPost, h, Step.isQuoted]
  split
  · simp [literalPost, h, Step.isQuoted]
  split
  · exact error_literalPost _ _ _ _
  · simp [literalPost, h, hs]

theorem stateInStringEsc_literalPost (s : scanner) (c : Byte) (h : s.parseState = []) :
    literalPost false (stateInStringEsc s c) := by
  unfold stateInStringEsc
  split
  · simp [literalPost, h, Step.isQuoted]
  split
  · simp [literalPost, h, Step.isQuoted]
  · exact error_literalPost _ _ _ _

theorem stateInStringEscHex_literalPost (next : Step) (s : scanner) (c : Byte)
    (h : s.parseState = []) (hn : next.isQuoted = true) :
    literalPost false (stateInStringEscHex next s c) := by
  unfold stateInStringEscHex
  split
  · simp [literalPost, h, hn]
  · exact error_literalPost _ _ _ _

theorem stateLiteral_literalPost (want : Byte) (next : Step) (context : String) (s : scanner)
    (c : Byte) (h : s.parseState = []) (hn : next.isQuoted = true) :
    literalPost false (stateLiteral want next context s c) := by
  unfold stateLiteral
  split
  · simp [literalPost, h, hn]
  · exact error_literalPost _ _ _ _

theorem stateNeg_literalPost (s : scanner) (c : Byte) (h : s.parseState = []) :
    literalPost true (stateNeg s c) := by
  unfold stateNeg
  split
  · simp [literalPost, h, Step.isNumber]
  split
  · simp [literalPost, h, Step.isNumber]
  · exact error_literalPost _ _ _ _

theorem state0_literalPost (s : scanner) (c : Byte) (h : s.parseState = []) :
    literalPost true (state0 s c) := by
  unfold state0
  split
  · simp [literalPost, h, Step.isNumber]
  split
  · simp [literalPost, h, Step.isNumber]
  · exact stateEndValue_literalPost _ s c h

theorem state1_literalPost (s : scanner) (c : Byte) (h : s.parseState = []) :
    literalPost true (state1 s c) := by
  unfold state1
  split
  · simp [literalPost, h, Step.isNumber]
  · exact state0_literalPost s c h

theorem stateDot_literalPost (s : scanner) (c : Byte) (h : s.parseState = []) :
    literalPost true (stateDot s c) := by
  unfold stateDot
  split
  · simp [literalPost, h, Step.isNumber]
  · exact error_literalPost _ _ _ _

theorem stateDot0_literalPost (s : scanner) (c : Byte) (h : s.parseState = [])
    (hs : s.step.isNumber = true) : literalPost true (stateDot0 s c) := by
  unfold stateDot0
  split
  · simp [literalPost, h, hs]
  split
  · simp [literalPost, h, Step.isNumber]
  · exact stateEndValue_literalPost _ s c h

theorem stateESign_literalPost (s : scanner) (c : Byte) (h : s.parseState = []) :
    literalPost true (stateESign s c) := by
  unfold stateESign
  split
  · simp [literalPost, h, Step.isNumber]
  · exact error_literalPost _ _ _ _

theorem stateE_literalPost (s : scanner) (c : Byte) (h : s.parseState = []) :
    literalPost true (stateE s c) := by
  unfold stateE
  split
  · simp [literalPost, h, Step.isNumber]
  · exact stateESign_literalPost s c h

theorem stateE0_literalPost (s : scanner) (c : Byte) (h : s.parseState = [])
    (hs : s.step.isNumber = true) : literalPost true (stateE0 s c) := by
  unfold stateE0
  split
  · simp [literalPost, h, hs]
  · exact stateEndValue_literalPost _ s c h

/-- A step inside a top-level number. -/
theorem doStep_number (s : scanner) (c : Byte) (h : s.parseState = [])
    (hs : s.step.isNumber = true) : literalPost true (s.doStep c) := by
  unfold scanner.doStep
  split <;> first
    | (rename_i hstep; rw [hstep] at hs; exact absurd hs (by decide))
    | exact stateNeg_literalPost s c h
    | exact state1_literalPost s c h
    | exact state0_literalPost s c h
    | exact stateDot_literalPost s c h
    | exact stateDot0_literalPost s c h hs
    | exact stateE_literalPost s c h
    | exact stateESign_literalPost s c h
    | exact stateE0_literalPost s c h hs

/-- A step inside a top-level string, `true`, `false` or `null`, or after it. -/
theorem doStep_quoted (s : scanner) (c : Byte) (h : s.parseState = [])
    (hs : s.step.isQuoted = true) : literalPost false (s.doStep c) := by
  unfold scanner.doStep
  split <;> first
    | (rename_i hstep; rw [hstep] at hs; exact absurd hs (by decide))
    | exact stateEndValue_literalPost _ s c h
    | exact stateInString_literalPost s c h hs
    | exact stateInStringEsc_literalPost s c h
    | exact stateInStringEscHex_literalPost _ s c h (by decide)
    | exact stateLiteral_literalPost _ _ _ s c h (by decide)

theorem pushParseState_beginPost (s0 s : scanner) (c : Byte) (ps : ParseState) (op : Opcode)
    (hs : s.step ≠ .stateEndTop)
    (hop : op = .scanBeginObject ∨ op = .scanBeginArray) :
    beginPost s0 c (s.pushParseState c ps op) := by
  unfold scanner.pushParseState
  simp only []
  split
  · rcases hop with hop | hop <;> subst hop <;> simp [beginPost, scanner.inner, hs]
  · simp [scanner.error, beginPost]

/-- A step before the top-level value. -/
theorem doStep_begin (s : scanner) (c : Byte) (h : s.parseState = [])
    (hs : s.step = .stateBeginValue) : beginPost s c (s.doStep c) := by
  unfold scanner.doStep
  rw [hs]
  simp only []
  unfold stateBeginValue
  split
  · simp [beginPost]
  split
  · exact pushParseState_beginPost _ _ c _ _ (by simp) (Or.inl rfl)
  split
  · exact pushParseState_beginPost _ _ c _ _ (by simp) (Or.inr rfl)
  split
  · simp [beginPost, h, Step.isQuoted]
  split
  · rename_i hc
    simp [beginPost, h, Step.isNumber, isNumberStart, hc]
  split
  · rename_i hc
    have : c = 48 := by simpa using hc
    subst this
    simp [beginPost, h, Step.isNumber, isNumberStart, isDigit]
  split
  · simp [beginPost, h, Step.isQuoted]
  split
  · simp [beginPost, h, Step.isQuoted]
  split
  · simp [beginPost, h, Step.isQuoted]
  split
  · rename_i hc
    have hd : isDigit c = true := by
      simp [isDigit19] at hc
      simp [isDigit]
      exact ⟨Nat.le_trans (by decide) hc.1, hc.2⟩
    simp [beginPost, h, Step.isNumber, isNumberStart, hd]
  · simp [scanner.error, beginPost]

/-- The count `readValueLoop` returns does not exceed the bytes it was given. -/
theorem readValueLoop_le (r : Reader) :
    ∀ (data : List Byte) (s : scanner) (k n : Nat),
      readValueLoop r s k data = .ok n → n ≤ k + data.length := by
  intro data
  induction data with
  | nil =>
    intro s k n hread
    unfold readValueLoop at hread
    split at hread
    · cases hread
    · split at hread
      · cases hread
        simp
      · split at hread <;> cases hread
  | cons c rest ih =>
    intro s k n hread
    unfold readValueLoop at hread
    simp only [List.length_cons]
    split at hread
    · cases hread
      omega
    · simp only [] at hread
      split at hread
      · cases hread
        omega
      · have := ih _ _ _ hread
        omega
    · simp only [] at hread
      split at hread
      · cases hread
        omega
      · have := ih _ _ _ hread
        omega
    · cases hread
    · have := ih _ _ _ hread
      omega

/-- At top level, after a string or `true`, `false`, `null`, only the state after
the literal lets the input end. -/
theorem quoted_end (s : scanner) (h : s.parseState = []) (hs : s.step.isQuoted = true)
    (hend : (s.doStep 32).1 = .scanEnd) : s.step = .stateEndValue := by
  obtain ⟨step, endTop, ps, err⟩ := s
  simp only at h hs
  subst h
  cases step <;> first
    | rfl
    | exact absurd hs (by decide)
    | (exfalso
       simp [scanner.doStep, stateInString, stateInStringEsc, stateInStringEscHex, stateLiteral,
         scanner.error, isHex, isDigit] at hend)

/-- At top level, in or after a string, `true`, `false` or `null`, the value
`readValueLoop` finds does not depend on what follows it in the stream. -/
theorem readValueLoop_quoted_append (r r2 : Reader) (suffix : List Byte) (herr : r2.err = r.err) :
    ∀ (data : List Byte) (s : scanner) (k n : Nat), s.parseState = [] →
      s.step.isQuoted = true →
      readValueLoop r s k data = .ok n → readValueLoop r2 s k (data ++ suffix) = .ok n := by
  intro data
  induction data with
  | nil =>
    intro s k n h hs hread
    unfold readValueLoop at hread
    cases hre : r.err with
    | some e =>
      rw [hre] at hread
      cases hread
    | none =>
      rw [hre] at hread
      simp only [] at hread
      by_cases hend : (s.doStep 32).1 = .scanEnd
      · rw [if_pos hend] at hread
        rw [List.nil_append]
        cases suffix with
        | nil =>
          unfold readValueLoop
          rw [herr, hre]
          simp only []
          rw [if_pos hend]
          exact hread
        | cons c rest =>
          have hstep := quoted_end s h hs hend
          have hc : (s.doStep c).1 = .scanEnd := by
            unfold scanner.doStep
            rw [hstep]
            exact stateEndValue_top s c h
          unfold readValueLoop
          cases hd : s.doStep c with
          | mk op s2 =>
            rw [hd] at hc
            simp only at hc
            subst hc
            exact hread
      · rw [if_neg hend] at hread
        split at hread <;> cases hread
  | cons c rest ih =>
    intro s k n h hs hread
    rw [List.cons_append]
    unfold readValueLoop at hread ⊢
    have hp := doStep_quoted s c h hs
    cases hstep : s.doStep c with
    | mk op s2 =>
      rw [hstep] at hp hread
      cases op
      case scanContinue =>
        simp only [literalPost, Bool.false_eq_true, if_false] at hp
        simp only [] at hread ⊢
        exact ih s2 (k + 1) n hp.1 hp.2 hread
      case scanEnd => exact hread
      case scanError => simp at hread
      all_goals exact absurd hp (by simp [literalPost])

/-- At top level inside a number, either the value `readValueLoop` finds does not
depend on what follows in the stream, or the stream ends inside the number, which
is then the whole value. -/
theorem readValueLoop_number_append (r r2 : Reader) (suffix : List Byte) :
    ∀ (data : List Byte) (s : scanner) (k n : Nat) (itemRev : List Byte), s.parseState = [] →
      s.step.isNumber = true → readValueLoop r s k data = .ok n →
      readValueLoop r2 s k (data ++ suffix) = .ok n
        ∨ (n = k + data.length
          ∧ tokenize s (some itemRev) data = [.literal (itemRev.reverse ++ data)]) := by
  intro data
  induction data with
  | nil =>
    intro s k n itemRev h hs hread
    right
    constructor
    · have := readValueLoop_le r [] s k n hread
      unfold readValueLoop at hread
      split at hread
      · cases hread
      · split at hread
        · cases hread
          simp
        · split at hread <;> cases hread
    · simp [tokenize, flushLiteral]
  | cons c rest ih =>
    intro s k n itemRev h hs hread
    rw [List.cons_append]
    unfold readValueLoop at hread ⊢
    have hp := doStep_number s c h hs
    cases hstep : s.doStep c with
    | mk op s2 =>
      rw [hstep] at hp hread
      cases op
      case scanContinue =>
        simp only [literalPost, if_true] at hp
        simp only [] at hread ⊢
        rcases ih s2 (k + 1) n (c :: itemRev) hp.1 hp.2 hread with hl | ⟨hn, ht⟩
        · left
          exact hl
        · right
          constructor
          · rw [hn, List.length_cons]
            omega
          · unfold tokenize
            rw [hstep]
            simp only [Option.map_some']
            rw [ht]
            simp
      case scanEnd =>
        left
        exact hread
      case scanError => simp at hread
      all_goals exact absurd hp (by simp [literalPost])

/-- From the start of the stream, either the value `readValueLoop` finds does not
depend on what follows it, or the whole stream is one number. -/
theorem readValueLoop_begin_append (r r2 : Reader) (suffix : List Byte) (herr : r2.err = r.err) :
    ∀ (data : List Byte) (s : scanner) (k n : Nat), s.parseState = [] →
      s.step = .stateBeginValue → readValueLoop r s k data = .ok n →
      readValueLoop r2 s k (data ++ suffix) = .ok n
        ∨ (n = k + data.length
          ∧ ∃ b item, isNumberStart b = true ∧ tokenize s none data = [.literal (b :: item)]) := by
  intro data
  induction data with
  | nil =>
    intro s k n h hs hread
    exfalso
    unfold readValueLoop at hread
    have hp := doStep_begin s 32 h hs
    split at hread
    · cases hread
    · split at hread
      · rename_i hend
        cases hd : s.doStep 32 with
        | mk op s2 =>
          rw [hd] at hp hend
          simp only at hend
          subst hend
          exact hp
      · split at hread <;> cases hread
  | cons c rest ih =>
    intro s k n h hs hread
    rw [List.cons_append]
    unfold readValueLoop at hread ⊢
    have hp := doStep_begin s c h hs
    cases hstep : s.doStep c with
    | mk op s2 =>
      rw [hstep] at hp hread
      cases op
      case scanSkipSpace =>
        simp only [beginPost] at hp
        subst hp
        simp only [] at hread ⊢
        rcases ih s2 (k + 1) n h hs hread with hl | ⟨hn, b, item, hb, ht⟩
        · left
          exact hl
        · right
          refine ⟨by rw [hn, List.length_cons]; omega, b, item, hb, ?_⟩
          unfold tokenize
          rw [hstep]
          simp only [flushLiteral, List.nil_append]
          exact ht
      case scanBeginObject =>
        simp only [beginPost] at hp
        simp only [] at hread ⊢
        left
        exact readValueLoop_inner_append r r2 suffix rest s2 (k + 1) n hp hread
      case scanBeginArray =>
        simp only [beginPost] at hp
        simp only [] at hread ⊢
        left
        exact readValueLoop_inner_append r r2 suffix rest s2 (k + 1) n hp hread
      case scanBeginLiteral =>
        simp only [beginPost] at hp
        simp only [] at hread ⊢
        obtain ⟨hps, hkind⟩ := hp
        rcases hkind with ⟨hb, hnum⟩ | hq
        · rcases readValueLoop_number_append r r2 suffix rest s2 (k + 1) n [c] hps hnum hread
            with hl | ⟨hn, ht⟩
          · left
            exact hl
          · right
            refine ⟨by rw [hn, List.length_cons]; omega, c, rest, hb, ?_⟩
            unfold tokenize
            rw [hstep]
            simp only []
            rw [ht]
            simp
        · left
          exact readValueLoop_quoted_append r r2 suffix herr rest s2 (k + 1) n hps hq hread
      case scanError => simp at hread
      all_goals exact absurd hp (by simp [beginPost])

/-- A number literal is decoded as a number. -/
theorem literalValue_number (b : Byte) (item : List Byte) (hb : isNumberStart b = true) :
    literalValue (b :: item) = .number (b :: item) := by
  unfold literalValue
  simp only []
  have hb2 : b = 45 ∨ (48 ≤ b ∧ b ≤ 57) := by
    simpa [isNumberStart, isDigit] using hb
  have h1 : (b == 110) = false := by
    rcases hb2 with h | ⟨h, h2⟩
    · subst h
      decide
    · exact beq_false_of_ne (fun e => by subst e; exact absurd h2 (by decide))
  have h2 : (b == 116) = false := by
    rcases hb2 with h | ⟨h, h2⟩
    · subst h
      decide
    · exact beq_false_of_ne (fun e => by subst e; exact absurd h2 (by decide))
  have h3 : (b == 102) = false := by
    rcases hb2 with h | ⟨h, h2⟩
    · subst h
      decide
    · exact beq_false_of_ne (fun e => by subst e; exact absurd h2 (by decide))
  have h4 : (b == 34) = false := by
    rcases hb2 with h | ⟨h, h2⟩
    · subst h
      decide
    · exact beq_false_of_ne (fun e => by subst e; exact absurd h (by decide))
  simp [h1, h2, h3, h4]

/-- The decoder reads the first JSON value of the stream only: when `Decode` succeeds
on a stream, it returns the same records on that stream followed by any further
bytes. -/
theorem Decode_append (data suffix : List Byte) (err : Option String)
    (rates : List exchangeRate) (h : Decode ⟨data, err⟩ = .ok rates) :
    Decode ⟨data ++ suffix, err⟩ = .ok rates := by
  unfold Decode at h ⊢
  cases hr : readValue ⟨data, err⟩ with
  | error e =>
    rw [hr] at h
    cases h
  | ok n =>
    rw [hr] at h
    simp only [] at h
    unfold readValue at hr
    simp only [] at hr
    have hle := readValueLoop_le _ _ _ _ _ hr
    rcases readValueLoop_begin_append ⟨data, err⟩ ⟨data ++ suffix, err⟩ suffix rfl data
        scanner.init 0 n rfl rfl hr with hl | ⟨hn, b, item, hb, ht⟩
    · have hr2 : readValue ⟨data ++ suffix, err⟩ = .ok n := hl
      rw [hr2]
      simp only []
      have htake : (data ++ suffix).take n = data.take n := by
        apply List.take_append_of_le_length
        omega
      rw [htake]
      exact h
    · exfalso
      have hnl : n = data.length := by omega
      have htake : data.take n = data := by
        rw [hnl]
        exact List.take_length data
      rw [htake] at h
      have hparse : parseValue data = some (.number (b :: item)) := by
        unfold parseValue
        rw [ht]
        simp [Builder.token, Builder.value, literalValue_number b item hb]
      rw [hparse] at h
      simp [unmarshalRates, JSON.kind] at h

/-! ## Malformed bodies -/

set_option maxRecDepth 100000 in
/-- C8 as stated fails: a well-formed array followed by trailing bytes that are not
JSON is not a valid JSON text, yet `getExchangeRate` returns the rate of the record
and a nil error. -/
theorem getExchangeRate_trailing_bytes :
    Valid sampleBody = true
      ∧ Valid trailingBody = false
      ∧ (getExchangeRate (sampleEnv (ok200 trailingBody) (ok200 [])) "secret").val
        = (sampleRate, none) := by
  decide

/-- C8, as the code has it: when the rate API answers with status 200 and
`Decode` reports an error on the body (the first JSON value of the body is malformed,
cut short, or is not an array of rate records), `getExchangeRate` returns rate 0 and
the error `failed to unmarshal exchange rate API response: ` wrapping it.  Bytes after
the first JSON value are not read: when a status-200 body decodes, the same body with
any bytes appended gives the same result. -/
theorem getExchangeRate_decode_error (env : Env) (apiKey : String) (resp : Response)
    (e : JSONError) (hdo : env.Do (rateRequest apiKey) = .ok resp)
    (hstatus : resp.StatusCode = StatusOK) (hdec : Decode resp.Body = .error e) :
    (getExchangeRate env apiKey).val =
        (⟨0⟩, some (.wrapf "failed to unmarshal exchange rate API response: " (.json e)))
      ∧ ∀ (env2 env3 : Env) (resp2 : Response) (rates : List exchangeRate) (suffix : List Byte),
          env2.Do (rateRequest apiKey) = .ok resp2 → resp2.StatusCode = StatusOK →
          Decode resp2.Body = .ok rates →
          env3.Do (rateRequest apiKey)
            = .ok { resp2 with Body := ⟨resp2.Body.data ++ suffix, resp2.Body.err⟩ } →
          (getExchangeRate env3 apiKey).val = (getExchangeRate env2 apiKey).val := by
  constructor
  · rw [getExchangeRate_eq, hdo]
    simp [hstatus, hdec]
  · intro env2 env3 resp2 rates suffix hdo2 hs2 hdec2 hdo3
    have hdec3 : Decode ⟨resp2.Body.data ++ suffix, resp2.Body.err⟩ = .ok rates :=
      Decode_append resp2.Body.data suffix resp2.Body.err rates hdec2
    rw [getExchangeRate_eq, hdo3, getExchangeRate_eq, hdo2]
    simp [hs2, hdec2, hdec3]

theorem getExchangeRate_decode_error_witness :
    (getExchangeRate (sampleEnv (ok200 (asciiBytes "[\x7b\"rate\":1.41523")) (ok200 [])) "secret").val
      = (⟨0⟩, some (.wrapf "failed to unmarshal exchange rate API response: "
          (.json .unexpectedEOF))) :=
  (getExchangeRate_decode_error (sampleEnv (ok200 (asciiBytes "[\x7b\"rate\":1.41523")) (ok200 []))
    "secret" ⟨200, "200 OK", ⟨asciiBytes "[\x7b\"rate\":1.41523", none⟩⟩ .unexpectedEOF
    (by decide) (by decide) (by decide)).1

end p
